import Mathlib

/-!
# golog: level routing, rotation policy and field merging

A shallow embedding of the logging facade of `golog.go` / `logger.go`:
the configuration record `logger`, the initializer `InitLogger` that assembles
the output cores, the rotation-writer constructor `getWriter`, the
field-flattening helper `with` and the context entry points.

Machine integers (`zapcore.Level` is an `int8`, `time.Duration` an `int64`, `skip`
an `int`) are embedded as `Int`: the code only compares them with each other and
with constants that fit their width, it never does arithmetic on them.

The rotation writer `rotateLogs.New` is a collaborator outside the repository.  Whether
it accepts the arguments `getWriter` hands to it is a parameter of `getWriter`, `outCore`
and `InitLogger`, which return `none` where the code panics.
-/

namespace Golog

/-! ## Levels and durations -/

/-- Severity level: `type Level = zapcore.Level` (logger.go, line 11). -/
abbrev Level := Int

/-- Modelled from the spec: the constant `zapcore.DebugLevel` of the external logging engine
(aliased in logger.go, line 14); the spec orders Debug < Info < Warn < Error. -/
def DebugLevel : Level := -1

/-- Modelled from the spec: the constant `zapcore.InfoLevel` (logger.go, line 15). -/
def InfoLevel : Level := 0

/-- Modelled from the spec: the constant `zapcore.WarnLevel` (logger.go, line 16). -/
def WarnLevel : Level := 1

/-- Modelled from the spec: the constant `zapcore.ErrorLevel` (logger.go, line 17). -/
def ErrorLevel : Level := 2

/-- Modelled from the spec: the level `zapcore.PanicLevel` at which `Panic*` records are written. -/
def PanicLevel : Level := 4

/-- Modelled from the spec: the level `zapcore.FatalLevel` at which `Fatal*` records are written. -/
def FatalLevel : Level := 5

/-- A `time.Duration`, counted in nanoseconds. -/
abbrev Duration := Int

/-- The constant `time.Minute`, in nanoseconds. -/
def Minute : Duration := 60 * 1000000000

/-- The constant `time.Hour`, in nanoseconds. -/
def Hour : Duration := 60 * Minute

/-! ## `filepath.Join` (Go standard library, Unix separator)

`InitLogger` derives every file name with `filepath.Join`.  The function is not part
of the repository; it is embedded here after `path/filepath` so that the derived
names can be computed and compared. -/

/-- The backtracking loop of `filepath.Clean` for a `..` element:
`for out.w > dotdot && !os.IsPathSeparator(out.index(out.w)) { out.w-- }`,
started at write position `w`; returns the final write position. -/
def cleanBacktrack (out : List Char) (dotdot : Nat) : Nat → Nat
  | 0 => 0
  | w + 1 =>
    if dotdot < w + 1 ∧ out.getD (w + 1) '/' ≠ '/' then cleanBacktrack out dotdot w
    else w + 1

/-- The step "add slash if needed" before a real path element is copied:
`if rooted && out.w != 1 || !rooted && out.w != 0 { out.append(Separator) }`. -/
def addSlash (rooted : Bool) (out : List Char) : List Char :=
  if (rooted && out.length != 1) || (!rooted && out.length != 0) then out ++ ['/']
  else out

/-- The main loop `for r < n { switch ... }` of `filepath.Clean`.  `rest` is the unread
input `path[r:]`, `out` the bytes written so far (`out.w = out.length`), `dotdot` the
position up to which `..` may not backtrack.  Every iteration consumes at least one
input character, so `fuel = rest.length` iterations always suffice (`cleanLoop_fuel`:
more fuel never changes the result). -/
def cleanLoop (rooted : Bool) : Nat → List Char → List Char → Nat → List Char
  | 0, _, out, _ => out
  | _ + 1, [], out, _ => out
  | fuel + 1, c :: rest, out, dotdot =>
    if c = '/' then
      -- empty path element
      cleanLoop rooted fuel rest out dotdot
    else if c = '.' ∧ (rest = [] ∨ rest.head? = some '/') then
      -- . element
      cleanLoop rooted fuel rest out dotdot
    else if c = '.' ∧ rest.head? = some '.' ∧
        (rest.tail = [] ∨ rest.tail.head? = some '/') then
      -- .. element: remove to last separator
      if dotdot < out.length then
        cleanLoop rooted fuel rest.tail
          (out.take (cleanBacktrack out dotdot (out.length - 1))) dotdot
      else if !rooted then
        let out1 := (if 0 < out.length then out ++ ['/'] else out) ++ ['.', '.']
        cleanLoop rooted fuel rest.tail out1 out1.length
      else
        cleanLoop rooted fuel rest.tail out dotdot
    else
      -- real path element: add slash if needed, then copy the element
      cleanLoop rooted fuel ((c :: rest).dropWhile (fun x => x != '/'))
        (addSlash rooted out ++ (c :: rest).takeWhile (fun x => x != '/')) dotdot

/-- The function `filepath.Clean` on a Unix path (no volume name). -/
def Clean (path : String) : String :=
  if path = "" then "."
  else
    let p := path.data
    let rooted := p.head? = some '/'
    let out :=
      if rooted then cleanLoop true p.length p.tail ['/'] 1
      else cleanLoop false p.length p [] 0
    String.mk (if out = [] then ['.'] else out)

/-- The function `filepath.Join`: the elements from the first non-empty one on are joined
with the separator and cleaned; the result is empty when every element is empty. -/
def filepathJoin (elem : List String) : String :=
  match elem.dropWhile (fun e => e = "") with
  | [] => ""
  | es => Clean (String.intercalate "/" es)

/-! ## Rotation writers and output cores -/

/-- The arguments `getWriter` hands to the rotation collaborator `rotateLogs.New`:
the strftime file-name pattern, `WithLinkName`, `WithMaxAge` and `WithRotationTime`. -/
structure RotateLogs where
  pattern : String
  linkName : String
  maxAge : Duration
  rotationTime : Duration
  deriving DecidableEq, Repr

/-- The `io.Writer` returned by `getWriter`: the rotation hook alone, or
`io.MultiWriter(os.Stdout, hook)`. -/
inductive Writer where
  | hook (h : RotateLogs)
  | multiStdout (h : RotateLogs)
  deriving DecidableEq, Repr

/-- The rotation hook inside a writer. -/
def Writer.rotate : Writer → RotateLogs
  | .hook h => h
  | .multiStdout h => h

/-- The arguments `getWriter` computes for `rotateLogs.New` (golog.go, lines 206-224):
the two defaults, the format chosen from the effective interval, and the option list. -/
def rotateLogsArgs (filename : String) (maxAge rotation : Duration) : RotateLogs :=
  let maxAge := if maxAge ≤ 0 then 30 * 24 * Hour else maxAge
  let rotation := if rotation ≤ 0 then 24 * Hour else rotation
  let format := if rotation = 24 * Hour then "%Y%m%d.log" else "%Y%m%d%H%M.log"
  { pattern := filename ++ "." ++ format
    linkName := filename
    maxAge := maxAge
    rotationTime := rotation }

/-- Embedding of `getWriter` (golog.go, lines 205-235).  The rotation collaborator is
outside the repository: `rotateLogsNew` tells whether `rotateLogs.New` accepts the
arguments (`err == nil`), and the hook it returns is represented by these arguments.  The
result is `none` when the collaborator rejects them: `panic(err)` (lines 226-228). -/
def getWriter (rotateLogsNew : RotateLogs → Bool) (isOutputStdout : Bool) (filename : String)
    (maxAge rotation : Duration) : Option Writer :=
  let hook := rotateLogsArgs filename maxAge rotation
  if rotateLogsNew hook = false then none
  else if isOutputStdout then some (Writer.multiStdout hook)
  else some (Writer.hook hook)

/-- The pattern check of the rotation collaborator (its strftime compiler, run by
`rotateLogs.New` on the file-name pattern): every `%` must be followed by a conversion
character of its default set, and a `%` at the end of the pattern is an error.  It only
serves to exhibit a pattern that the collaborator rejects (`%` followed by `/`); the
general theorems hold for every collaborator. -/
def strftimeOk : List Char → Bool
  | [] => true
  | c :: rest =>
    if c = '%' then
      match rest with
      | [] => false
      | d :: rest2 =>
        "AaBbCcDdeFHhIjklMmnpRrSTtUuVvWwXxYyZz%".data.contains d && strftimeOk rest2
    else strftimeOk rest

/-- A rotation collaborator that rejects exactly the patterns its strftime compiler
rejects. -/
def strftimeCollaborator (h : RotateLogs) : Bool :=
  strftimeOk h.pattern.data

/-- A rotation collaborator that accepts every pattern. -/
def acceptAll (_h : RotateLogs) : Bool :=
  true

/-- The encoder chosen by `InitLogger`: console or JSON, short or full caller. -/
structure Encoder where
  json : Bool
  shortCaller : Bool
  deriving DecidableEq, Repr

/-- Destination of a core: `zapcore.AddSync(os.Stdout)` or `zapcore.AddSync(writer)`. -/
inductive Dest where
  | stdout
  | file (w : Writer)
  deriving DecidableEq, Repr

/-- The level enabler of a core.  `floor f` is a fixed threshold: a `Level` value used as
enabler (`l.level` passed by value at line 179) or a closure `lvl >= XLevel` over a
constant.  `loggerLevel` is the closure `lvl >= l.level` of line 163, which reads the
field of the logger through its pointer each time it is asked. -/
inductive Enabler where
  | floor (f : Level)
  | loggerLevel
  deriving DecidableEq, Repr

/-- One output core (`zapcore.NewCore(encoder, destination, enabler)`): a sink. -/
structure Sink where
  enc : Encoder
  dest : Dest
  enab : Enabler
  deriving DecidableEq, Repr

/-- The pair of `zap.New(outCore, op1, op2)` and `Named`: the fan-out list of cores
(`zapcore.NewTee(cores...)`, or the single console core), whether callers are added, the
caller skip and the logger name. -/
structure ZapLogger where
  cores : List Sink
  addCaller : Bool
  callerSkip : Int
  name : String
  deriving DecidableEq, Repr

/-! ## The logger -/

/-- A fragment of Go's `interface{}` values: what the field maps and contexts carry. -/
inductive Value where
  | null
  | str (s : String)
  | int (n : Int)
  | bool (b : Bool)
  deriving DecidableEq, Repr

/-- A `map[string]interface{}`, given as its entries in iteration order.  A Go map holds
every key once; the order in which `range` visits the entries is unspecified. -/
abbrev Fields := List (String × Value)

/-- A `context.Context`, reduced to the values it carries. -/
abbrev Context := List (Value × Value)

/-- The configuration record `logger` (golog.go, lines 15-31).  The two engine handles
are `none` while they are nil pointers; `addFieldFunc` is `none` while it is nil.  The
enricher mutates the map it is handed: it is embedded as the map it leaves behind. -/
structure logger where
  name : String
  zapLogger : Option ZapLogger
  sugarLog : Option ZapLogger
  level : Level
  short : Bool
  json : Bool
  addFieldFunc : Option (Context → Fields → Fields)
  logPath : String
  fileName : String
  fileMaxAge : Duration
  fileRotation : Duration
  isOutputStdout : Bool
  skip : Int

/-- Embedding of `New` (golog.go, lines 48-54): a zero-valued record with level Info. -/
def New : logger :=
  { name := "", zapLogger := none, sugarLog := none, level := InfoLevel, short := false,
    json := false, addFieldFunc := none, logPath := "", fileName := "", fileMaxAge := 0,
    fileRotation := 0, isOutputStdout := false, skip := 0 }

/-- The encoder `zConfig` built by `InitLogger` (golog.go, lines 58-81). -/
def zConfig (l : logger) : Encoder :=
  { json := l.json, shortCaller := l.short }

/-- The local `debugFileName` of `InitLogger` (golog.go, lines 87 and 92-93). -/
def debugFileName (l : logger) : String :=
  if l.fileName ≠ "" then filepathJoin [l.logPath, l.fileName] ++ "_debug.log"
  else filepathJoin [l.logPath, "access.log"]

/-- The local `infoFileName` of `InitLogger` (golog.go, lines 88 and 94). -/
def infoFileName (l : logger) : String :=
  if l.fileName ≠ "" then filepathJoin [l.logPath, l.fileName] ++ "_info.log"
  else filepathJoin [l.logPath, "info.log"]

/-- The local `warnFileName` of `InitLogger` (golog.go, lines 89 and 95). -/
def warnFileName (l : logger) : String :=
  if l.fileName ≠ "" then filepathJoin [l.logPath, l.fileName] ++ "_warn.log"
  else filepathJoin [l.logPath, "warn.log"]

/-- The local `errFileName` of `InitLogger` (golog.go, lines 90 and 96). -/
def errFileName (l : logger) : String :=
  if l.fileName ≠ "" then filepathJoin [l.logPath, l.fileName] ++ "_err.log"
  else filepathJoin [l.logPath, "error.log"]

/-- The core `outCore` assembled by `InitLogger` (golog.go, lines 83-181), as the list of
cores handed to `zapcore.NewTee`, or the single console core when `logPath` is empty.
The `getWriter` calls are made in the order of the source, each one only when the level
admits its floor; the result is `none` as soon as one of them panics. -/
def outCore (rotateLogsNew : RotateLogs → Bool) (l : logger) : Option (List Sink) :=
  if l.logPath ≠ "" then
    let cores : List Sink := []
    (if l.level ≤ DebugLevel then
      (getWriter rotateLogsNew false (debugFileName l) l.fileMaxAge l.fileRotation).bind
        (fun debugWriter => some (cores ++
          [Sink.mk (zConfig l) (Dest.file debugWriter) (Enabler.floor DebugLevel)]))
    else some cores).bind fun cores =>
    (if l.level ≤ InfoLevel then
      (getWriter rotateLogsNew false (infoFileName l) l.fileMaxAge l.fileRotation).bind
        (fun infoWriter => some (cores ++
          [Sink.mk (zConfig l) (Dest.file infoWriter) (Enabler.floor InfoLevel)]))
    else some cores).bind fun cores =>
    (if l.level ≤ WarnLevel then
      (getWriter rotateLogsNew false (warnFileName l) l.fileMaxAge l.fileRotation).bind
        (fun warnWriter => some (cores ++
          [Sink.mk (zConfig l) (Dest.file warnWriter) (Enabler.floor WarnLevel)]))
    else some cores).bind fun cores =>
    (if l.level ≤ ErrorLevel then
      (getWriter rotateLogsNew false (errFileName l) l.fileMaxAge l.fileRotation).bind
        (fun errorWriter => some (cores ++
          [Sink.mk (zConfig l) (Dest.file errorWriter) (Enabler.floor ErrorLevel)]))
    else some cores).bind fun cores =>
    some (if l.isOutputStdout then
      cores ++ [Sink.mk (zConfig l) Dest.stdout Enabler.loggerLevel]
    else cores)
  else
    some [Sink.mk (zConfig l) Dest.stdout (Enabler.floor l.level)]

/-- Embedding of `(*logger).InitLogger` (golog.go, lines 57-199): the engine handles are
replaced by a logger over `outCore` with `zap.AddCaller()`, the caller skip (1 unless
`skip > 0`) and the name (`Named` is skipped for the empty name, which it would keep).
The result is `none` when a `getWriter` call panics: the assignments of lines 197-198 are
then never reached. -/
def InitLogger (rotateLogsNew : RotateLogs → Bool) (l : logger) : Option logger :=
  match outCore rotateLogsNew l with
  | none => none
  | some cores =>
    let op2 : Int := if l.skip > 0 then l.skip else 1
    let zapLogger : ZapLogger :=
      { cores := cores, addCaller := true, callerSkip := op2, name := "" }
    let zapLogger := if l.name ≠ "" then { zapLogger with name := l.name } else zapLogger
    some { l with zapLogger := some zapLogger, sugarLog := some zapLogger }

/-- Whether an enabler lets a record of level `lvl` through, on a logger whose level
field currently holds `cur`. -/
def Enabler.Enabled (cur : Level) : Enabler → Level → Bool
  | .floor f, lvl => decide (lvl ≥ f)
  | .loggerLevel, lvl => decide (lvl ≥ cur)

/-- Whether sink `s` of logger `l` accepts (writes) a record of level `lvl`:
`ioCore.Check` adds the core to the entry exactly when its enabler is enabled. -/
def accepts (l : logger) (s : Sink) (lvl : Level) : Bool :=
  s.enab.Enabled l.level lvl

/-- The sinks of the pipeline currently installed in `l` (none before any `InitLogger`). -/
def pipeline (l : logger) : List Sink :=
  match l.sugarLog with
  | some z => z.cores
  | none => []

/-- A console sink writes to `os.Stdout` directly. -/
def Sink.isConsole (s : Sink) : Bool :=
  match s.dest with
  | .stdout => true
  | .file _ => false

/-- A file sink writes (only) to a rotation hook. -/
def Sink.isFile (s : Sink) : Bool :=
  match s.dest with
  | .file (.hook _) => true
  | _ => false

/-- The file a file sink writes to: the link name of its rotation hook. -/
def Sink.path (s : Sink) : Option String :=
  match s.dest with
  | .file w => some w.rotate.linkName
  | .stdout => none

/-- The fixed floor of a sink, when its enabler has one. -/
def Sink.floor (s : Sink) : Option Level :=
  match s.enab with
  | .floor f => some f
  | .loggerLevel => none

/-- The file `InitLogger` assigns to the file sink of floor `F`. -/
def floorFileName (l : logger) (F : Level) : String :=
  if F = DebugLevel then debugFileName l
  else if F = InfoLevel then infoFileName l
  else if F = WarnLevel then warnFileName l
  else errFileName l

/-- The arguments `InitLogger` makes `getWriter` hand to the collaborator for the file of
floor `F`. -/
def floorHook (l : logger) (F : Level) : RotateLogs :=
  rotateLogsArgs (floorFileName l F) l.fileMaxAge l.fileRotation

/-- The file core of floor `F` as `InitLogger` builds it once the collaborator has
accepted its hook. -/
def fileCore (l : logger) (F : Level) : Sink :=
  Sink.mk (zConfig l) (Dest.file (Writer.hook (floorHook l F))) (Enabler.floor F)

/-- The configuration of `TestNew` (golog_test.go, lines 12-18) on a fresh logger. -/
def testNewLogger : logger :=
  { New with
    level := InfoLevel, short := true, json := true, name := "log_demo",
    isOutputStdout := true, logPath := "./log", fileName := "demo",
    fileMaxAge := Hour, fileRotation := 200 * Minute }

/-- The logger `testNewLogger` after `InitLogger`, with a collaborator that accepts every
pattern. -/
def testNewReady : logger :=
  match InitLogger acceptAll testNewLogger with
  | some l => l
  | none => New

/-- The extra console sink of `testNewLogger`. -/
def testNewConsole : Sink :=
  { enc := { json := true, shortCaller := true }, dest := Dest.stdout,
    enab := Enabler.loggerLevel }

/-- The warn-file sink of `testNewLogger`. -/
def testNewWarnFile : Sink :=
  { enc := { json := true, shortCaller := true },
    dest := Dest.file (Writer.hook
      { pattern := "log/demo_warn.log.%Y%m%d%H%M.log", linkName := "log/demo_warn.log",
        maxAge := Hour, rotationTime := 200 * Minute }),
    enab := Enabler.floor WarnLevel }

/-- A plain file name: one real path element, that is a non-empty name without separator
other than `.` and `..`. -/
def plainName (n : List Char) : Prop :=
  n ≠ [] ∧ '/' ∉ n ∧ n ≠ ['.'] ∧ n ≠ ['.', '.']

/-- The file sinks of floor `F` in a list of sinks. -/
def fileSinksAt (F : Level) (cores : List Sink) : List Sink :=
  cores.filter (fun s => s.isFile && decide (s.floor = some F))

/-! ## Field merging: `with` -/

/-- Lexicographic comparison of two character sequences, character by character. -/
def strLess : List Char → List Char → Bool
  | _, [] => false
  | [], _ :: _ => true
  | x :: xs, y :: ys =>
    if x.toNat < y.toNat then true
    else if y.toNat < x.toNat then false
    else strLess xs ys

/-- Go's `a < b` on strings: lexicographic order (the byte order of UTF-8 text is the
order of its code points). -/
def stringLess (a b : String) : Bool :=
  strLess a.data b.data

/-- The function `sort.Strings`: the keys in increasing lexicographic order.  The order on
strings is total, so the sorted arrangement does not depend on the sorting algorithm. -/
def sortStrings (keys : List String) : List String :=
  keys.insertionSort (fun a b => stringLess b a = false)

/-- The map index expression `fields[k]`: the value stored under `k`, nil when absent. -/
def mapIndex (fields : Fields) (k : String) : Value :=
  (fields.lookup k).getD Value.null

/-- Embedding of `with` (golog.go, lines 483-495; `with` is a keyword here): the keys are
collected in iteration order, sorted, and flattened with their values. -/
def with_ (fields : Fields) : List Value :=
  let i : List Value := []
  let keys : List String := []
  let keys := fields.foldl (fun keys kv => keys ++ [kv.1]) keys
  let keys := sortStrings keys
  keys.foldl (fun i v => i ++ [Value.str v, mapIndex fields v]) i

/-! ## Context entry points -/

/-- The six severities of the entry points. -/
inductive Severity where
  | debug | info | warn | error | fatal | panic
  deriving DecidableEq, Repr

/-- The level at which the sugared method of a severity writes its record. -/
def Severity.level : Severity → Level
  | .debug => DebugLevel
  | .info => InfoLevel
  | .warn => WarnLevel
  | .error => ErrorLevel
  | .fatal => FatalLevel
  | .panic => PanicLevel

/-- The call an entry point forwards to the sugared logger:
`l.sugarLog.With(fields...).Info(template)` (`formatted = false`) or
`l.sugarLog.With(fields...).Infof(template, args...)` (`formatted = true`), and
likewise for the other severities.  The plain forms attach no field; the positional form
`l.sugarLog.Info(args...)` has `formatted = false` and no template. -/
structure LogCall where
  severity : Severity
  fields : List Value
  template : String
  args : List Value
  formatted : Bool
  deriving DecidableEq, Repr

/-- The map assignment `m[k] = v`: the entry of `k` is replaced, or added when `k` is new. -/
def mapSet (m : Fields) (k : String) (v : Value) : Fields :=
  if m.any (fun kv => kv.1 == k) then m.map (fun kv => if kv.1 = k then (k, v) else kv)
  else m ++ [(k, v)]

/-- The method `ctx.Value(key)`: the value the context carries under `key`, else nil. -/
def ctxValue (ctx : Context) (key : Value) : Value :=
  (ctx.lookup key).getD Value.null

/-- Embedding of `(*logger).addField` (golog.go, lines 578-585): the enricher, when one is
registered, is run on the map; the result is the map as it is afterwards. -/
def addField (l : logger) (ctx : Context) (fields : Fields) : Fields :=
  match l.addFieldFunc with
  | some f => f ctx fields
  | none => fields

/-- Embedding of the six methods `DebugContextWithFields` ... `PanicContextWithFields`
(golog.go, lines 587-663), which differ only in the sugared method they call.  The result
is `none` when `sugarLog` is a nil pointer. -/
def ContextWithFields (sev : Severity) (l : logger) (ctx : Context) (fields : Fields)
    (template : String) (args : List Value) : Option LogCall :=
  let fields := addField l ctx fields
  match l.sugarLog with
  | none => none
  | some _ =>
    if args.length = 0 then
      some { severity := sev, fields := with_ fields, template := template, args := [],
             formatted := false }
    else
      some { severity := sev, fields := with_ fields, template := template, args := args,
             formatted := true }

/-- Embedding of the six methods `DebugContext` ... `PanicContext` (golog.go, lines
665-747): as above, on a fresh empty map `make(map[string]interface{})`. -/
def ContextLog (sev : Severity) (l : logger) (ctx : Context) (template : String)
    (args : List Value) : Option LogCall :=
  let fields : Fields := []
  let fields := addField l ctx fields
  match l.sugarLog with
  | none => none
  | some _ =>
    if args.length = 0 then
      some { severity := sev, fields := with_ fields, template := template, args := [],
             formatted := false }
    else
      some { severity := sev, fields := with_ fields, template := template, args := args,
             formatted := true }

/-- The enricher of the tests (golog_test.go, lines 19-21):
`m["diy_filed"] = ctx.Value("diy")`. -/
def testEnricher (ctx : Context) (m : Fields) : Fields :=
  mapSet m "diy_filed" (ctxValue ctx (Value.str "diy"))

/-- The logger of `TestNew` after `AddFieldFunc` and `InitLogger`, with a collaborator
that accepts every pattern. -/
def testNewInit : logger :=
  match InitLogger acceptAll { testNewLogger with addFieldFunc := some testEnricher } with
  | some l => l
  | none => New

/-! ## Setters, getters and the default instance -/

/-- Embedding of `(*logger).SetName` (golog.go, lines 249-252). -/
def SetName (l : logger) (name : String) : logger :=
  { l with name := name }

/-- Embedding of `(*logger).GetName` (golog.go, lines 258-260). -/
def GetName (l : logger) : String :=
  l.name

/-- Embedding of `(*logger).SetCallerSkip` (golog.go, lines 266-269). -/
def SetCallerSkip (l : logger) (skip : Int) : logger :=
  { l with skip := skip }

/-- Embedding of `(*logger).GetCallerSkip` (golog.go, lines 275-277). -/
def GetCallerSkip (l : logger) : Int :=
  l.skip

/-- Embedding of `(*logger).SetIsOutputStdout` (golog.go, lines 283-286). -/
def SetIsOutputStdout (l : logger) (isOutputStdout : Bool) : logger :=
  { l with isOutputStdout := isOutputStdout }

/-- Embedding of `(*logger).GetIsOutputStdout` (golog.go, lines 292-294). -/
def GetIsOutputStdout (l : logger) : Bool :=
  l.isOutputStdout

/-- Embedding of `(*logger).SetFileRotate` (golog.go, lines 300-304). -/
def SetFileRotate (l : logger) (fileMaxAge fileRotation : Duration) : logger :=
  { l with fileMaxAge := fileMaxAge, fileRotation := fileRotation }

/-- Embedding of `(*logger).GetFileRotate` (golog.go, lines 310-312). -/
def GetFileRotate (l : logger) : Duration × Duration :=
  (l.fileMaxAge, l.fileRotation)

/-- Embedding of `(*logger).SetCallerShort` (golog.go, lines 318-321). -/
def SetCallerShort (l : logger) (short : Bool) : logger :=
  { l with short := short }

/-- Embedding of `(*logger).GetCallerShort` (golog.go, lines 327-329). -/
def GetCallerShort (l : logger) : Bool :=
  l.short

/-- Embedding of `(*logger).SetOutputJson` (golog.go, lines 335-338). -/
def SetOutputJson (l : logger) (json : Bool) : logger :=
  { l with json := json }

/-- Embedding of `(*logger).GetOutputJson` (golog.go, lines 344-346). -/
def GetOutputJson (l : logger) : Bool :=
  l.json

/-- Embedding of `(*logger).SetLevel` (golog.go, lines 352-355). -/
def SetLevel (l : logger) (level : Level) : logger :=
  { l with level := level }

/-- Embedding of `(*logger).GetLevel` (golog.go, lines 361-363). -/
def GetLevel (l : logger) : Level :=
  l.level

/-- Embedding of `(*logger).SetOutputFile` (golog.go, lines 365-373): the two names are
stored, and when the stored retention is zero both rotation fields get their defaults. -/
def SetOutputFile (l : logger) (logPath fileName : String) : logger :=
  let l := { l with logPath := logPath, fileName := fileName }
  if l.fileMaxAge = 0 then
    { l with fileMaxAge := 30 * 24 * Hour, fileRotation := 24 * Hour }
  else l

/-- Embedding of `(*logger).GetOutputFile` (golog.go, lines 379-381). -/
def GetOutputFile (l : logger) : String × String :=
  (l.logPath, l.fileName)

/-- Embedding of `(*logger).AddFieldFunc` (golog.go, lines 573-576). -/
def AddFieldFunc (l : logger) (f : Context → Fields → Fields) : logger :=
  { l with addFieldFunc := some f }

/-- One call of a configuration method, with its arguments. -/
inductive SetterCall where
  | setName (name : String)
  | setCallerSkip (skip : Int)
  | setIsOutputStdout (isOutputStdout : Bool)
  | setFileRotate (fileMaxAge fileRotation : Duration)
  | setCallerShort (short : Bool)
  | setOutputJson (json : Bool)
  | setLevel (level : Level)
  | setOutputFile (logPath fileName : String)
  | addFieldFunc (f : Context → Fields → Fields)

/-- The logger after one configuration call. -/
def applyCall (l : logger) : SetterCall → logger
  | .setName name => SetName l name
  | .setCallerSkip skip => SetCallerSkip l skip
  | .setIsOutputStdout b => SetIsOutputStdout l b
  | .setFileRotate a r => SetFileRotate l a r
  | .setCallerShort b => SetCallerShort l b
  | .setOutputJson b => SetOutputJson l b
  | .setLevel level => SetLevel l level
  | .setOutputFile p f => SetOutputFile l p f
  | .addFieldFunc f => AddFieldFunc l f

/-- The logger after a sequence of configuration calls, made in order. -/
def applyCalls (l : logger) : List SetterCall → logger
  | [] => l
  | c :: cs => applyCalls (applyCall l c) cs

/-- The arguments of the most recent call selected by `sel` in a sequence of calls, if
there is one. -/
def lastArg {α : Type} (sel : SetterCall → Option α) : List SetterCall → Option α
  | [] => none
  | c :: cs =>
    match lastArg sel cs with
    | some v => some v
    | none => sel c

/-- The argument of a `SetName` call. -/
def argName : SetterCall → Option String
  | .setName name => some name
  | _ => none

/-- The argument of a `SetCallerSkip` call. -/
def argCallerSkip : SetterCall → Option Int
  | .setCallerSkip skip => some skip
  | _ => none

/-- The argument of a `SetIsOutputStdout` call. -/
def argIsOutputStdout : SetterCall → Option Bool
  | .setIsOutputStdout b => some b
  | _ => none

/-- The arguments of a `SetFileRotate` call. -/
def argFileRotate : SetterCall → Option (Duration × Duration)
  | .setFileRotate a r => some (a, r)
  | _ => none

/-- The argument of a `SetCallerShort` call. -/
def argCallerShort : SetterCall → Option Bool
  | .setCallerShort b => some b
  | _ => none

/-- The argument of a `SetOutputJson` call. -/
def argOutputJson : SetterCall → Option Bool
  | .setOutputJson b => some b
  | _ => none

/-- The argument of a `SetLevel` call. -/
def argLevel : SetterCall → Option Level
  | .setLevel level => some level
  | _ => none

/-- The arguments of a `SetOutputFile` call. -/
def argOutputFile : SetterCall → Option (String × String)
  | .setOutputFile p f => some (p, f)
  | _ => none

/-- The configuration of a rejected directory: `SetOutputFile("log%", "d")` and
`SetIsOutputStdout(true)` on a fresh logger. -/
def percentLogger : logger :=
  SetIsOutputStdout (SetOutputFile New "log%" "d") true

/-- The process-wide default instance `_log` (golog.go, lines 33-39): `New()`, on which
the package initializer calls `SetCallerSkip(2)` and `InitLogger()`; `none` would be a
panic of the package initializer. -/
def _log (rotateLogsNew : RotateLogs → Bool) : Option logger :=
  InitLogger rotateLogsNew (SetCallerSkip New 2)

/-! ## Plain entry points and `StringLevel` -/

/-- Embedding of the six methods `Debug` ... `Panic` (golog.go, lines 395-477):
`l.sugarLog.Info(args...)`; there is no template and no field.  The result is `none` when
`sugarLog` is a nil pointer. -/
def LogArgs (sev : Severity) (l : logger) (args : List Value) : Option LogCall :=
  match l.sugarLog with
  | none => none
  | some _ =>
    some { severity := sev, fields := [], template := "", args := args, formatted := false }

/-- Embedding of the six methods `Debugf` ... `Panicf` (golog.go, lines 387-473):
`l.sugarLog.Infof(template, args...)`. -/
def LogTemplate (sev : Severity) (l : logger) (template : String) (args : List Value) :
    Option LogCall :=
  match l.sugarLog with
  | none => none
  | some _ =>
    some { severity := sev, fields := [], template := template, args := args,
           formatted := true }

/-- Embedding of the six methods `DebugWithFields` ... `PanicWithFields` (golog.go, lines
497-567). -/
def LogWithFields (sev : Severity) (l : logger) (fields : Fields) (template : String)
    (args : List Value) : Option LogCall :=
  match l.sugarLog with
  | none => none
  | some _ =>
    if args.length = 0 then
      some { severity := sev, fields := with_ fields, template := template, args := [],
             formatted := false }
    else
      some { severity := sev, fields := with_ fields, template := template, args := args,
             formatted := true }

/-- The function `strings.ToLower` of the Go standard library: every character is mapped
to its lower case.  The character mapping `unicode.ToLower` is the parameter `lower`. -/
def ToLower (lower : Char → Char) (s : String) : String :=
  String.mk (s.data.map lower)

/-- Embedding of `StringLevel` (logger.go, lines 20-33). -/
def StringLevel (lower : Char → Char) (level : String) : Level :=
  let s := ToLower lower level
  if s = "debug" then DebugLevel
  else if s = "info" then InfoLevel
  else if s = "warn" then WarnLevel
  else if s = "error" then ErrorLevel
  else InfoLevel

/-! # Verified properties -/

/-! ## Level routing (C1 - C5) -/

/-- The call `getWriter(false, ...)`: the bare hook, or a panic when the collaborator
rejects the arguments. -/
theorem getWriter_false (newOk : RotateLogs → Bool) (f : String) (a r : Duration) :
    getWriter newOk false f a r =
      if newOk (rotateLogsArgs f a r) = true then some (Writer.hook (rotateLogsArgs f a r))
      else none := by
  unfold getWriter
  cases h : newOk (rotateLogsArgs f a r) <;> simp [h]

/-- One step of `InitLogger`: the file core of a floor is appended when the level admits
the floor, which panics when the collaborator rejects the hook. -/
theorem outCore_step (newOk : RotateLogs → Bool) (c : Prop) [Decidable c] (e : Encoder)
    (f : String) (a r : Duration) (n : Enabler) (cores : List Sink) :
    (if c then
        (getWriter newOk false f a r).bind
          (fun w => some (cores ++ [Sink.mk e (Dest.file w) n]))
      else some cores) =
    if c → newOk (rotateLogsArgs f a r) = true then
      some (cores ++ if c then
        [Sink.mk e (Dest.file (Writer.hook (rotateLogsArgs f a r))) n] else [])
    else none := by
  rw [getWriter_false]
  by_cases hc : c <;> cases h : newOk (rotateLogsArgs f a r) <;> simp [hc, h]

/-- The four names of `InitLogger` are the names of the four floors. -/
theorem floorFileName_eq (l : logger) :
    floorFileName l DebugLevel = debugFileName l ∧ floorFileName l InfoLevel = infoFileName l ∧
    floorFileName l WarnLevel = warnFileName l ∧ floorFileName l ErrorLevel = errFileName l := by
  simp [floorFileName, DebugLevel, InfoLevel, WarnLevel, ErrorLevel]

/-- Four fallible steps in a row succeed exactly when each of them does. -/
theorem bind_chain (P1 P2 P3 P4 : Prop) [Decidable P1] [Decidable P2] [Decidable P3]
    [Decidable P4] (A B C D : List Sink) (c : Bool) (x : Sink) :
    ((if P1 then some ([] ++ A) else none).bind fun cores =>
      (if P2 then some (cores ++ B) else none).bind fun cores =>
      (if P3 then some (cores ++ C) else none).bind fun cores =>
      (if P4 then some (cores ++ D) else none).bind fun cores =>
      some (if c = true then cores ++ [x] else cores)) =
      if P1 ∧ P2 ∧ P3 ∧ P4 then
        some (A ++ (B ++ (C ++ (D ++ if c = true then [x] else [])))) else none := by
  by_cases h1 : P1 <;> by_cases h2 : P2 <;> by_cases h3 : P3 <;> by_cases h4 : P4 <;>
    cases c <;> simp [h1, h2, h3, h4]

/-- With an output directory, `outCore` returns exactly when the collaborator accepts the
hook of every floor the level admits, and then returns the file cores of these floors in
the order Debug, Info, Warn, Error, followed by the console core when `isOutputStdout` is
set. -/
theorem outCore_eq (newOk : RotateLogs → Bool) (l : logger) (hp : l.logPath ≠ "") :
    outCore newOk l =
      if (l.level ≤ DebugLevel → newOk (floorHook l DebugLevel) = true) ∧
          (l.level ≤ InfoLevel → newOk (floorHook l InfoLevel) = true) ∧
          (l.level ≤ WarnLevel → newOk (floorHook l WarnLevel) = true) ∧
          (l.level ≤ ErrorLevel → newOk (floorHook l ErrorLevel) = true) then
        some ((if l.level ≤ DebugLevel then [fileCore l DebugLevel] else []) ++
          ((if l.level ≤ InfoLevel then [fileCore l InfoLevel] else []) ++
          ((if l.level ≤ WarnLevel then [fileCore l WarnLevel] else []) ++
          ((if l.level ≤ ErrorLevel then [fileCore l ErrorLevel] else []) ++
          (if l.isOutputStdout = true then
            [Sink.mk (zConfig l) Dest.stdout Enabler.loggerLevel] else [])))))
      else none := by
  obtain ⟨e1, e2, e3, e4⟩ := floorFileName_eq l
  unfold outCore
  simp only [hp, ne_eq, not_false_eq_true, if_true, outCore_step, fileCore, floorHook,
    e1, e2, e3, e4]
  exact bind_chain
    (l.level ≤ DebugLevel →
      newOk (rotateLogsArgs (debugFileName l) l.fileMaxAge l.fileRotation) = true)
    (l.level ≤ InfoLevel →
      newOk (rotateLogsArgs (infoFileName l) l.fileMaxAge l.fileRotation) = true)
    (l.level ≤ WarnLevel →
      newOk (rotateLogsArgs (warnFileName l) l.fileMaxAge l.fileRotation) = true)
    (l.level ≤ ErrorLevel →
      newOk (rotateLogsArgs (errFileName l) l.fileMaxAge l.fileRotation) = true)
    _ _ _ _ _ _

/-- Without output directory `outCore` is the console core at the configured level: no
writer is constructed. -/
theorem outCore_console (newOk : RotateLogs → Bool) (l : logger) (hp : l.logPath = "") :
    outCore newOk l = some [Sink.mk (zConfig l) Dest.stdout (Enabler.floor l.level)] := by
  simp [outCore, hp]

/-- When `InitLogger` returns, the pipeline it installed is the result of `outCore` and
the level field is left alone. -/
theorem InitLogger_some (newOk : RotateLogs → Bool) (l l' : logger)
    (h : InitLogger newOk l = some l') :
    outCore newOk l = some (pipeline l') ∧ l'.level = l.level := by
  unfold InitLogger at h
  cases hc : outCore newOk l with
  | none => simp [hc] at h
  | some cores =>
    simp only [hc, Option.some.injEq] at h
    subst h
    by_cases hn : l.name = "" <;> simp [pipeline, hn]

/-- The function `InitLogger` panics exactly when `outCore` does. -/
theorem InitLogger_eq_none (newOk : RotateLogs → Bool) (l : logger) :
    InitLogger newOk l = none ↔ outCore newOk l = none := by
  unfold InitLogger
  cases hc : outCore newOk l <;> simp

/-- With an output directory, the pipeline that `InitLogger` installed is the
concatenation of five optional cores. -/
theorem pipeline_append (newOk : RotateLogs → Bool) (l l' : logger)
    (h : InitLogger newOk l = some l') (hp : l.logPath ≠ "") :
    pipeline l' =
      (if l.level ≤ DebugLevel then [fileCore l DebugLevel] else []) ++
      ((if l.level ≤ InfoLevel then [fileCore l InfoLevel] else []) ++
      ((if l.level ≤ WarnLevel then [fileCore l WarnLevel] else []) ++
      ((if l.level ≤ ErrorLevel then [fileCore l ErrorLevel] else []) ++
      (if l.isOutputStdout = true then
          [Sink.mk (zConfig l) Dest.stdout Enabler.loggerLevel] else [])))) := by
  have h1 := (InitLogger_some newOk l l' h).1
  rw [outCore_eq newOk l hp] at h1
  split at h1
  · exact (Option.some.inj h1).symm
  · exact absurd h1 (by simp)

/-- Membership in the pipeline that `InitLogger` installed, case by case. -/
theorem mem_pipeline (newOk : RotateLogs → Bool) (l l' : logger)
    (h : InitLogger newOk l = some l') (s : Sink) :
    s ∈ pipeline l' ↔
      (l.logPath ≠ "" ∧
        ((l.level ≤ DebugLevel ∧ s = fileCore l DebugLevel) ∨
         (l.level ≤ InfoLevel ∧ s = fileCore l InfoLevel) ∨
         (l.level ≤ WarnLevel ∧ s = fileCore l WarnLevel) ∨
         (l.level ≤ ErrorLevel ∧ s = fileCore l ErrorLevel) ∨
         (l.isOutputStdout = true ∧
            s = Sink.mk (zConfig l) Dest.stdout Enabler.loggerLevel))) ∨
      (l.logPath = "" ∧ s = Sink.mk (zConfig l) Dest.stdout (Enabler.floor l.level)) := by
  by_cases hp : l.logPath = ""
  · have h1 := (InitLogger_some newOk l l' h).1
    rw [outCore_console newOk l hp] at h1
    rw [← Option.some.inj h1]
    simp [hp]
  · rw [pipeline_append newOk l l' h hp]
    simp only [hp, ne_eq, not_false_eq_true, false_and, or_false, true_and]
    by_cases h1 : l.level ≤ DebugLevel <;> by_cases h2 : l.level ≤ InfoLevel <;>
      by_cases h3 : l.level ≤ WarnLevel <;> by_cases h4 : l.level ≤ ErrorLevel <;>
      by_cases h5 : l.isOutputStdout = true <;>
      simp [h1, h2, h3, h4, h5]

/-- The link name of the hook is the file name handed to `getWriter`. -/
theorem rotateLogsArgs_linkName (f : String) (a r : Duration) :
    (rotateLogsArgs f a r).linkName = f := by
  simp [rotateLogsArgs]

/-- C1. For every configured minimum level L and every record level R, a console sink of
the pipeline built by `InitLogger` (the console-only sink of a logger without output
directory, or the extra console sink added for `isOutputStdout`) accepts the record if and
only if R >= L. -/
theorem console_sink_accepts_iff (newOk : RotateLogs → Bool) (l l' : logger)
    (h : InitLogger newOk l = some l') (R : Level) (s : Sink)
    (hs : s ∈ pipeline l') (hc : s.isConsole = true) :
    accepts l' s R = true ↔ R ≥ l.level := by
  have hl := (InitLogger_some newOk l l' h).2
  rw [mem_pipeline newOk l l' h] at hs
  rcases hs with ⟨_, h | h | h | h | h⟩ | h
  · obtain ⟨_, rfl⟩ := h
    simp [Sink.isConsole, fileCore] at hc
  · obtain ⟨_, rfl⟩ := h
    simp [Sink.isConsole, fileCore] at hc
  · obtain ⟨_, rfl⟩ := h
    simp [Sink.isConsole, fileCore] at hc
  · obtain ⟨_, rfl⟩ := h
    simp [Sink.isConsole, fileCore] at hc
  · obtain ⟨_, rfl⟩ := h
    simp [accepts, Enabler.Enabled, hl]
  · obtain ⟨_, rfl⟩ := h
    simp [accepts, Enabler.Enabled, hl]

/-- C1, at the configuration of `TestNew`: the extra console sink takes a Warn record. -/
theorem console_sink_accepts_iff_witness :
    accepts testNewReady testNewConsole WarnLevel = true ↔ WarnLevel ≥ testNewLogger.level :=
  console_sink_accepts_iff acceptAll testNewLogger testNewReady (by rfl) WarnLevel
    testNewConsole (by decide) (by decide)

/-- C2. With file output enabled, every file sink of the pipeline built by `InitLogger` has
one of the four floors Debug, Info, Warn, Error, writes to the file named after that floor,
and a record of level R is written to it if and only if R >= F; a record below the floor is
never written to it. -/
theorem file_sink_accepts_iff (newOk : RotateLogs → Bool) (l l' : logger)
    (h : InitLogger newOk l = some l') (_hp : l.logPath ≠ "") (R : Level) (s : Sink)
    (hs : s ∈ pipeline l') (hf : s.isFile = true) :
    ∃ F : Level, F ∈ [DebugLevel, InfoLevel, WarnLevel, ErrorLevel] ∧
      s.floor = some F ∧ s.path = some (floorFileName l F) ∧
      (accepts l' s R = true ↔ R ≥ F) ∧
      (R < F → accepts l' s R = false) := by
  rw [mem_pipeline newOk l l' h] at hs
  rcases hs with ⟨_, h | h | h | h | h⟩ | h
  · obtain ⟨_, rfl⟩ := h
    refine ⟨DebugLevel, by simp, rfl, ?_, ?_, ?_⟩
    · simp [Sink.path, fileCore, floorHook, Writer.rotate, rotateLogsArgs_linkName]
    · simp [accepts, Enabler.Enabled, fileCore]
    · intro h; simpa [accepts, Enabler.Enabled, fileCore] using h
  · obtain ⟨_, rfl⟩ := h
    refine ⟨InfoLevel, by simp, rfl, ?_, ?_, ?_⟩
    · simp [Sink.path, fileCore, floorHook, Writer.rotate, rotateLogsArgs_linkName]
    · simp [accepts, Enabler.Enabled, fileCore]
    · intro h; simpa [accepts, Enabler.Enabled, fileCore] using h
  · obtain ⟨_, rfl⟩ := h
    refine ⟨WarnLevel, by simp, rfl, ?_, ?_, ?_⟩
    · simp [Sink.path, fileCore, floorHook, Writer.rotate, rotateLogsArgs_linkName]
    · simp [accepts, Enabler.Enabled, fileCore]
    · intro h; simpa [accepts, Enabler.Enabled, fileCore] using h
  · obtain ⟨_, rfl⟩ := h
    refine ⟨ErrorLevel, by simp, rfl, ?_, ?_, ?_⟩
    · simp [Sink.path, fileCore, floorHook, Writer.rotate, rotateLogsArgs_linkName]
    · simp [accepts, Enabler.Enabled, fileCore]
    · intro h; simpa [accepts, Enabler.Enabled, fileCore] using h
  · obtain ⟨_, rfl⟩ := h
    simp [Sink.isFile] at hf
  · obtain ⟨_, rfl⟩ := h
    simp [Sink.isFile] at hf

/-- C2, at the configuration of `TestNew`: the warn file and an Info record. -/
theorem file_sink_accepts_iff_witness :
    ∃ F : Level, F ∈ [DebugLevel, InfoLevel, WarnLevel, ErrorLevel] ∧
      testNewWarnFile.floor = some F ∧
      testNewWarnFile.path = some (floorFileName testNewLogger F) ∧
      (accepts testNewReady testNewWarnFile InfoLevel = true ↔ InfoLevel ≥ F) ∧
      (InfoLevel < F → accepts testNewReady testNewWarnFile InfoLevel = false) :=
  file_sink_accepts_iff acceptAll testNewLogger testNewReady (by rfl) (by decide) InfoLevel
    testNewWarnFile (by decide) (by decide)

/-- C3. For every configuration and every record level R below the configured minimum
level L, no sink of the pipeline built by `InitLogger` accepts the record, console or file;
and a file sink with floor F only exists when L <= F. -/
theorem below_level_no_sink_accepts (newOk : RotateLogs → Bool) (l l' : logger)
    (h : InitLogger newOk l = some l') (R : Level) (hR : R < l.level) (s : Sink)
    (hs : s ∈ pipeline l') :
    accepts l' s R = false ∧
      (∀ F : Level, s.isFile = true → s.floor = some F → l.level ≤ F) := by
  have hl := (InitLogger_some newOk l l' h).2
  rw [mem_pipeline newOk l l' h] at hs
  simp only [DebugLevel, InfoLevel, WarnLevel, ErrorLevel] at hs
  rcases hs with ⟨_, h | h | h | h | h⟩ | h
  all_goals obtain ⟨hl, rfl⟩ := h
  all_goals refine ⟨?_, ?_⟩
  all_goals first
    | (simp only [accepts, Enabler.Enabled, fileCore, hl, decide_eq_false_iff_not]
       unfold Level at *; omega)
    | (intro F _ hF; simp only [Sink.floor, fileCore, Option.some.injEq] at hF
       unfold Level at *; omega)
    | (intro F hf; simp [Sink.isFile] at hf)

/-- C3, at the configuration of `TestNew`: a Debug record and the warn file. -/
theorem below_level_no_sink_accepts_witness :
    accepts testNewReady testNewWarnFile DebugLevel = false ∧
      (∀ F : Level, testNewWarnFile.isFile = true → testNewWarnFile.floor = some F →
        testNewLogger.level ≤ F) :=
  below_level_no_sink_accepts acceptAll testNewLogger testNewReady (by rfl) DebugLevel
    (by decide) testNewWarnFile (by decide)


/-- The file sinks of floor `F` in a conditional one-file-core list. -/
theorem fileSinksAt_file (c : Prop) [Decidable c] (l : logger) (F G : Level) :
    (fileSinksAt F (if c then [fileCore l G] else [])).length =
      if c ∧ G = F then 1 else 0 := by
  by_cases hc : c <;> by_cases hG : G = F <;>
    simp [fileSinksAt, hc, hG, List.filter_cons, Sink.isFile, Sink.floor, fileCore]

/-- A conditional console core holds no file sink. -/
theorem fileSinksAt_console (c : Prop) [Decidable c] (e : Encoder) (n : Enabler) (F : Level) :
    (fileSinksAt F (if c then [Sink.mk e Dest.stdout n] else [])).length = 0 := by
  by_cases hc : c <;> simp [fileSinksAt, hc, List.filter_cons, Sink.isFile]

/-- Counting file sinks distributes over concatenation. -/
theorem fileSinksAt_append (F : Level) (xs ys : List Sink) :
    (fileSinksAt F (xs ++ ys)).length =
      (fileSinksAt F xs).length + (fileSinksAt F ys).length := by
  simp [fileSinksAt, List.filter_append]

/-- With an output directory, `InitLogger` panics exactly when the collaborator rejects the
hook of a floor that the level admits. -/
theorem InitLogger_panics_iff (newOk : RotateLogs → Bool) (l : logger) (hp : l.logPath ≠ "") :
    InitLogger newOk l = none ↔
      ∃ F : Level, F ∈ [DebugLevel, InfoLevel, WarnLevel, ErrorLevel] ∧ l.level ≤ F ∧
        newOk (floorHook l F) = false := by
  rw [InitLogger_eq_none, outCore_eq newOk l hp]
  simp only [List.mem_cons, List.mem_singleton, List.not_mem_nil, or_false, exists_eq_or_imp,
    exists_eq_left, ite_eq_right_iff, imp_false, Bool.eq_false_iff, ne_eq]
  tauto

/-- C4 as stated fails: with the output directory `log%` (non-empty) and level Info, the
collaborator rejects the pattern of the info file (`%` followed by `/`), `InitLogger`
panics, and the logger is left without any file sink of floor Info. -/
theorem percent_directory_no_file_sink :
    percentLogger.logPath ≠ "" ∧ percentLogger.level ≤ InfoLevel ∧
    strftimeCollaborator (floorHook percentLogger InfoLevel) = false ∧
    InitLogger strftimeCollaborator percentLogger = none ∧
    (fileSinksAt InfoLevel (pipeline percentLogger)).length = 0 := by
  refine ⟨by decide, by decide, by decide, by rfl, by rfl⟩

/-- C4, amended. With file output active and minimum level L, `InitLogger` returns exactly
when the rotation collaborator accepts the hook of every floor F with L <= F (it panics
otherwise); and whenever it returns, the pipeline it built holds, for each floor F among
Debug, Info, Warn, Error, exactly one file sink of floor F when L <= F and none when L > F,
and every file sink has one of these four floors. -/
theorem one_file_sink_per_floor (newOk : RotateLogs → Bool) (l : logger)
    (hp : l.logPath ≠ "") :
    (InitLogger newOk l = none ↔
      ∃ F : Level, F ∈ [DebugLevel, InfoLevel, WarnLevel, ErrorLevel] ∧ l.level ≤ F ∧
        newOk (floorHook l F) = false) ∧
    (∀ l' : logger, InitLogger newOk l = some l' →
      (∀ F : Level, F ∈ [DebugLevel, InfoLevel, WarnLevel, ErrorLevel] →
        (fileSinksAt F (pipeline l')).length = if l.level ≤ F then 1 else 0) ∧
      (∀ s : Sink, s ∈ pipeline l' → s.isFile = true →
        ∃ F : Level, F ∈ [DebugLevel, InfoLevel, WarnLevel, ErrorLevel] ∧
          s.floor = some F)) := by
  refine ⟨InitLogger_panics_iff newOk l hp, ?_⟩
  intro l' h
  constructor
  · intro F hF
    rw [pipeline_append newOk l l' h hp]
    simp only [fileSinksAt_append, fileSinksAt_file, fileSinksAt_console]
    simp only [List.mem_cons, List.mem_singleton, List.not_mem_nil, or_false] at hF
    rcases hF with rfl | rfl | rfl | rfl <;>
      simp [DebugLevel, InfoLevel, WarnLevel, ErrorLevel]
  · intro s hs hf
    rw [mem_pipeline newOk l l' h] at hs
    rcases hs with ⟨_, h | h | h | h | h⟩ | h
    · obtain ⟨_, rfl⟩ := h; simp [Sink.floor, fileCore]
    · obtain ⟨_, rfl⟩ := h; simp [Sink.floor, fileCore]
    · obtain ⟨_, rfl⟩ := h; simp [Sink.floor, fileCore]
    · obtain ⟨_, rfl⟩ := h; simp [Sink.floor, fileCore]
    · obtain ⟨_, rfl⟩ := h; simp [Sink.isFile] at hf
    · obtain ⟨_, rfl⟩ := h; simp [Sink.isFile] at hf

/-- C4, amended, at the configuration of `TestNew`, whose patterns the collaborator
accepts. -/
theorem one_file_sink_per_floor_witness :
    (∀ F : Level, F ∈ [DebugLevel, InfoLevel, WarnLevel, ErrorLevel] →
      (fileSinksAt F (pipeline testNewReady)).length =
        if testNewLogger.level ≤ F then 1 else 0) ∧
    (∀ s : Sink, s ∈ pipeline testNewReady → s.isFile = true →
      ∃ F : Level, F ∈ [DebugLevel, InfoLevel, WarnLevel, ErrorLevel] ∧ s.floor = some F) :=
  (one_file_sink_per_floor acceptAll testNewLogger (by decide)).2 testNewReady (by rfl)

/-- C5 as stated fails: with the output directory `log%`, `isOutputStdout` set and level
Info, `InitLogger` panics in the `getWriter` call for the info file, before the console
core is built, and the logger is left without any console sink. -/
theorem percent_directory_no_console_sink :
    percentLogger.isOutputStdout = true ∧
    InitLogger strftimeCollaborator percentLogger = none ∧
    ((pipeline percentLogger).filter Sink.isConsole).length = 0 := by
  refine ⟨by rfl, by rfl, by rfl⟩

/-- C5, amended. Whenever `InitLogger` returns, the pipeline it built holds exactly one
console sink when `logPath` is empty or `isOutputStdout` is set and none otherwise, and
every other sink is a file sink, which does not write to the console; with an empty
`logPath`, `InitLogger` always returns and the console sink (at the configured level) is
the only sink, whatever `fileName` and `isOutputStdout` are. -/
theorem console_sink_count (newOk : RotateLogs → Bool) (l : logger) :
    (∀ l' : logger, InitLogger newOk l = some l' →
      ((pipeline l').filter Sink.isConsole).length =
          (if l.logPath = "" ∨ l.isOutputStdout = true then 1 else 0) ∧
      (∀ s : Sink, s ∈ pipeline l' → s.isConsole = false → s.isFile = true)) ∧
    (l.logPath = "" →
      ∃ l' : logger, InitLogger newOk l = some l' ∧
        pipeline l' = [Sink.mk (zConfig l) Dest.stdout (Enabler.floor l.level)]) := by
  refine ⟨?_, ?_⟩
  · intro l' h
    constructor
    · by_cases hp : l.logPath = ""
      · have h1 := (InitLogger_some newOk l l' h).1
        rw [outCore_console newOk l hp] at h1
        rw [← Option.some.inj h1]
        simp [hp, Sink.isConsole]
      · rw [pipeline_append newOk l l' h hp]
        simp only [List.filter_append, List.length_append, hp, false_or]
        by_cases h1 : l.level ≤ DebugLevel <;> by_cases h2 : l.level ≤ InfoLevel <;>
          by_cases h3 : l.level ≤ WarnLevel <;> by_cases h4 : l.level ≤ ErrorLevel <;>
          by_cases h5 : l.isOutputStdout = true <;>
          simp [h1, h2, h3, h4, h5, List.filter_cons, Sink.isConsole, fileCore]
    · intro s hs hc
      rw [mem_pipeline newOk l l' h] at hs
      rcases hs with ⟨_, h | h | h | h | h⟩ | h
      · obtain ⟨_, rfl⟩ := h; simp [Sink.isFile, fileCore]
      · obtain ⟨_, rfl⟩ := h; simp [Sink.isFile, fileCore]
      · obtain ⟨_, rfl⟩ := h; simp [Sink.isFile, fileCore]
      · obtain ⟨_, rfl⟩ := h; simp [Sink.isFile, fileCore]
      · obtain ⟨_, rfl⟩ := h; simp [Sink.isConsole] at hc
      · obtain ⟨_, rfl⟩ := h; simp [Sink.isConsole] at hc
  · intro hp
    cases hi : InitLogger newOk l with
    | none =>
      rw [InitLogger_eq_none, outCore_console newOk l hp] at hi
      exact absurd hi (by simp)
    | some l' =>
      refine ⟨l', rfl, ?_⟩
      have h1 := (InitLogger_some newOk l l' hi).1
      rw [outCore_console newOk l hp] at h1
      exact (Option.some.inj h1).symm

/-- C5, amended, on a fresh logger: without output directory `InitLogger` returns even with
the collaborator that checks patterns, and the console sink is the only sink. -/
theorem console_sink_count_witness :
    ∃ l' : logger, InitLogger strftimeCollaborator New = some l' ∧
      pipeline l' = [Sink.mk (zConfig New) Dest.stdout (Enabler.floor New.level)] :=
  (console_sink_count strftimeCollaborator New).2 (by decide)

/-! ## Field merging (C6) -/

/-- No sequence is below itself. -/
theorem strLess_irrefl (a : List Char) : strLess a a = false := by
  induction a with
  | nil => rfl
  | cons x xs ih => simp [strLess, ih]

/-- Two sequences neither of which is below the other are equal. -/
theorem strLess_trichotomy :
    ∀ a b : List Char, strLess a b = false → strLess b a = false → a = b
  | [], [], _, _ => rfl
  | [], _ :: _, h, _ => by simp [strLess] at h
  | _ :: _, [], _, h => by simp [strLess] at h
  | x :: xs, y :: ys, h1, h2 => by
    simp only [strLess] at h1 h2
    by_cases hxy : x.toNat < y.toNat
    · simp [hxy] at h1
    · by_cases hyx : y.toNat < x.toNat
      · simp [hyx] at h2
      · simp only [hxy, hyx, if_false] at h1 h2
        have hn : x.toNat = y.toNat := by omega
        have hc : x = y := by
          rw [← Char.ofNat_toNat x, ← Char.ofNat_toNat y, hn]
        rw [hc, strLess_trichotomy xs ys h1 h2]

/-- The order is transitive. -/
theorem strLess_trans :
    ∀ a b c : List Char, strLess a b = true → strLess b c = true → strLess a c = true
  | _, [], _, h, _ => by cases ‹List Char› <;> simp [strLess] at h
  | _, _ :: _, [], _, h => by simp [strLess] at h
  | [], _ :: _, _ :: _, _, _ => by simp [strLess]
  | x :: xs, y :: ys, z :: zs, h1, h2 => by
    simp only [strLess] at h1 h2 ⊢
    by_cases hxy : x.toNat < y.toNat
    · by_cases hyz : y.toNat < z.toNat
      · have : x.toNat < z.toNat := by omega
        simp [this]
      · by_cases hzy : z.toNat < y.toNat
        · simp [hyz, hzy] at h2
        · have : x.toNat < z.toNat := by omega
          simp [this]
    · by_cases hyx : y.toNat < x.toNat
      · simp [hxy, hyx] at h1
      · simp only [hxy, hyx, if_false] at h1
        by_cases hyz : y.toNat < z.toNat
        · have : x.toNat < z.toNat := by omega
          simp [this]
        · by_cases hzy : z.toNat < y.toNat
          · simp [hyz, hzy] at h2
          · simp only [hyz, hzy, if_false] at h2
            have e1 : ¬ x.toNat < z.toNat := by omega
            have e2 : ¬ z.toNat < x.toNat := by omega
            simp only [e1, e2, if_false]
            exact strLess_trans xs ys zs h1 h2

/-- "Not above" on strings is a total relation. -/
theorem stringLess_total (a b : String) : stringLess b a = false ∨ stringLess a b = false := by
  cases h : stringLess b a
  · exact Or.inl rfl
  · right
    cases h2 : stringLess a b
    · rfl
    · have := strLess_trans _ _ _ h h2
      rw [strLess_irrefl] at this
      exact absurd this (by simp)

/-- "Not above" on strings is transitive. -/
theorem stringLess_le_trans (a b c : String) (h1 : stringLess b a = false)
    (h2 : stringLess c b = false) : stringLess c a = false := by
  cases h : stringLess c a
  · rfl
  · exfalso
    cases h3 : stringLess b c
    · have e := strLess_trichotomy _ _ h2 h3
      unfold stringLess at h h1
      rw [e] at h
      rw [h] at h1
      exact absurd h1 (by simp)
    · have := strLess_trans _ _ _ h3 h
      unfold stringLess at h1
      rw [this] at h1
      exact absurd h1 (by simp)

/-- "Not above" on strings is antisymmetric. -/
theorem stringLess_antisymm (a b : String) (h1 : stringLess b a = false)
    (h2 : stringLess a b = false) : a = b := by
  exact String.ext (strLess_trichotomy _ _ h2 h1)

/-- The result of `sortStrings` is in non-decreasing order. -/
theorem sortStrings_sorted (keys : List String) :
    (sortStrings keys).Sorted (fun a b => stringLess b a = false) := by
  haveI : IsTotal String (fun a b => stringLess b a = false) := ⟨stringLess_total⟩
  haveI : IsTrans String (fun a b => stringLess b a = false) := ⟨stringLess_le_trans⟩
  exact List.sorted_insertionSort _ keys

/-- The result of `sortStrings` is a rearrangement of its input. -/
theorem sortStrings_perm (keys : List String) : (sortStrings keys).Perm keys :=
  List.perm_insertionSort _ keys

/-- The result of `sortStrings` only depends on the collection of keys, not their order. -/
theorem sortStrings_congr (ks ks' : List String) (h : ks.Perm ks') :
    sortStrings ks = sortStrings ks' := by
  haveI : IsAntisymm String (fun a b => stringLess b a = false) := ⟨stringLess_antisymm⟩
  exact List.eq_of_perm_of_sorted
    (((sortStrings_perm ks).trans h).trans (sortStrings_perm ks').symm)
    (sortStrings_sorted ks) (sortStrings_sorted ks')

/-- Distinct keys come out of `sortStrings` in strictly increasing order. -/
theorem sortStrings_strict (keys : List String) (hn : keys.Nodup) :
    (sortStrings keys).Pairwise (fun a b => stringLess a b = true) := by
  have hs : (sortStrings keys).Pairwise (fun a b => stringLess b a = false) :=
    sortStrings_sorted keys
  have hd : (sortStrings keys).Pairwise (fun a b => a ≠ b) :=
    ((sortStrings_perm keys).nodup_iff).mpr hn
  refine (hs.and hd).imp ?_
  intro a b hab
  cases h : stringLess a b
  · exact absurd (stringLess_antisymm a b hab.1 h) hab.2
  · rfl

/-- Collecting the keys with `append` in a `range` loop yields the keys in iteration order. -/
theorem foldl_keys (fields : Fields) (acc : List String) :
    fields.foldl (fun keys kv => keys ++ [kv.1]) acc = acc ++ fields.map Prod.fst := by
  induction fields generalizing acc with
  | nil => simp
  | cons kv rest ih => simp [List.foldl_cons, ih]

/-- Appending key and value in a `range` loop yields the alternating sequence. -/
theorem foldl_pairs (fields : Fields) (keys : List String) (acc : List Value) :
    keys.foldl (fun i v => i ++ [Value.str v, mapIndex fields v]) acc =
      acc ++ keys.flatMap (fun k => [Value.str k, mapIndex fields k]) := by
  induction keys generalizing acc with
  | nil => simp
  | cons k rest ih => simp [List.foldl_cons, ih]

/-- The shape of `with`: the sorted keys, each followed by the value stored under it. -/
theorem with_eq (fields : Fields) :
    with_ fields = (sortStrings (fields.map Prod.fst)).flatMap
      (fun k => [Value.str k, mapIndex fields k]) := by
  simp [with_, foldl_keys, foldl_pairs]

/-- In a map (every key once), indexing at the key of an entry gives the value of the entry. -/
theorem mapIndex_of_mem (m : Fields) (hm : (m.map Prod.fst).Nodup) (k : String) (v : Value)
    (h : (k, v) ∈ m) : mapIndex m k = v := by
  induction m with
  | nil => simp at h
  | cons kv rest ih =>
    obtain ⟨k', v'⟩ := kv
    simp only [List.map_cons, List.nodup_cons, List.mem_map, not_exists, not_and] at hm
    simp only [List.mem_cons, Prod.mk.injEq] at h
    by_cases hk : k = k'
    · subst hk
      rcases h with h | h
      · simp [mapIndex, List.lookup, h.2]
      · exact absurd rfl (hm.1 (k, v) h)
    · rcases h with h | h
      · exact absurd h.1 hk
      · have hb : (k == k') = false := by simpa using hk
        have := ih hm.2 h
        simpa [mapIndex, List.lookup, hb] using this

/-- Indexing at a key that is not in the map gives nil. -/
theorem mapIndex_of_not_mem (m : Fields) (k : String) (h : k ∉ m.map Prod.fst) :
    mapIndex m k = Value.null := by
  induction m with
  | nil => rfl
  | cons kv rest ih =>
    obtain ⟨k', v'⟩ := kv
    simp only [List.map_cons, List.mem_cons, not_or] at h
    have hb : (k == k') = false := by simpa using h.1
    have := ih h.2
    simpa [mapIndex, List.lookup, hb] using this

/-- Indexing does not depend on the iteration order of a map. -/
theorem mapIndex_perm (m m' : Fields) (hm : (m.map Prod.fst).Nodup) (hp : m'.Perm m)
    (k : String) : mapIndex m' k = mapIndex m k := by
  have hm' : (m'.map Prod.fst).Nodup := ((hp.map Prod.fst).nodup_iff).mpr hm
  by_cases hk : k ∈ m.map Prod.fst
  · obtain ⟨⟨k0, v⟩, hmem, rfl⟩ := List.mem_map.mp hk
    rw [mapIndex_of_mem m hm k0 v hmem, mapIndex_of_mem m' hm' k0 v (hp.mem_iff.mpr hmem)]
  · have hk' : k ∉ m'.map Prod.fst := fun h => hk ((hp.map Prod.fst).mem_iff.mp h)
    rw [mapIndex_of_not_mem m k hk, mapIndex_of_not_mem m' k hk']

/-- The alternating sequence over `n` keys has `2 * n` elements. -/
theorem length_pairs (fields : Fields) (keys : List String) :
    (keys.flatMap (fun k => [Value.str k, mapIndex fields k])).length = 2 * keys.length := by
  induction keys with
  | nil => rfl
  | cons k rest ih => simp [List.flatMap_cons, ih]; omega

/-- C6. For every field mapping m (every key once, in any iteration order), `with` returns
the alternating sequence k1, m[k1], k2, m[k2], ... over a list of keys that is strictly
increasing in lexicographic order and holds exactly the keys of m: each key of m is followed
by its own value, the length is 2*|m|, and the result is the same for every iteration
order of m. -/
theorem with_sorted_alternating (m : Fields) (hm : (m.map Prod.fst).Nodup) :
    (∃ ks : List String,
      ks.Pairwise (fun a b => stringLess a b = true) ∧ ks.Perm (m.map Prod.fst) ∧
      with_ m = ks.flatMap (fun k => [Value.str k, mapIndex m k])) ∧
    (∀ k v, (k, v) ∈ m → mapIndex m k = v) ∧
    (with_ m).length = 2 * m.length ∧
    (∀ m' : Fields, m'.Perm m → with_ m' = with_ m) := by
  refine ⟨⟨sortStrings (m.map Prod.fst), sortStrings_strict _ hm, sortStrings_perm _,
    with_eq m⟩, mapIndex_of_mem m hm, ?_, ?_⟩
  · rw [with_eq, length_pairs, (sortStrings_perm _).length_eq, List.length_map]
  · intro m' hp
    rw [with_eq, with_eq, sortStrings_congr _ _ (hp.map Prod.fst)]
    congr 1
    funext k
    rw [mapIndex_perm m m' hm hp k]

/-- C6, on a three-entry mapping given out of order. -/
theorem with_sorted_alternating_witness :
    (∃ ks : List String,
      ks.Pairwise (fun a b => stringLess a b = true) ∧
      ks.Perm (List.map Prod.fst [("k1", Value.str "sss"), ("a", Value.int 3),
        ("Zone", Value.bool true)]) ∧
      with_ [("k1", Value.str "sss"), ("a", Value.int 3), ("Zone", Value.bool true)] =
        ks.flatMap (fun k => [Value.str k,
          mapIndex [("k1", Value.str "sss"), ("a", Value.int 3), ("Zone", Value.bool true)] k])) ∧
    (∀ k v, (k, v) ∈ [("k1", Value.str "sss"), ("a", Value.int 3), ("Zone", Value.bool true)] →
      mapIndex [("k1", Value.str "sss"), ("a", Value.int 3), ("Zone", Value.bool true)] k = v) ∧
    (with_ [("k1", Value.str "sss"), ("a", Value.int 3), ("Zone", Value.bool true)]).length =
      2 * [("k1", Value.str "sss"), ("a", Value.int 3), ("Zone", Value.bool true)].length ∧
    (∀ m' : Fields, m'.Perm [("k1", Value.str "sss"), ("a", Value.int 3),
        ("Zone", Value.bool true)] →
      with_ m' = with_ [("k1", Value.str "sss"), ("a", Value.int 3), ("Zone", Value.bool true)]) :=
  with_sorted_alternating
    [("k1", Value.str "sss"), ("a", Value.int 3), ("Zone", Value.bool true)] (by decide)

/-! ## Rotation policy (C7, C8) -/

/-- The function `getWriter` hands `rotateLogsArgs` to the collaborator: it returns the
writer over this hook when the collaborator accepts it and panics otherwise. -/
theorem getWriter_eq (newOk : RotateLogs → Bool) (isOutputStdout : Bool) (filename : String)
    (maxAge rotation : Duration) :
    getWriter newOk isOutputStdout filename maxAge rotation =
      if newOk (rotateLogsArgs filename maxAge rotation) = true then
        some (if isOutputStdout = true then
          Writer.multiStdout (rotateLogsArgs filename maxAge rotation)
        else Writer.hook (rotateLogsArgs filename maxAge rotation))
      else none := by
  unfold getWriter
  cases h : newOk (rotateLogsArgs filename maxAge rotation) <;> cases isOutputStdout <;>
    simp [h]

/-- Every writer that `getWriter` returns is built over `rotateLogsArgs`. -/
theorem getWriter_rotate (newOk : RotateLogs → Bool) (isOutputStdout : Bool)
    (filename : String) (maxAge rotation : Duration) (w : Writer)
    (h : getWriter newOk isOutputStdout filename maxAge rotation = some w) :
    w.rotate = rotateLogsArgs filename maxAge rotation := by
  rw [getWriter_eq] at h
  split at h
  · cases isOutputStdout <;> simp at h <;> subst h <;> rfl
  · exact absurd h (by simp)

/-- C7. For every pair of durations handed to `getWriter`, the retention given to the
rotation writer is 30 days when the configured retention is <= 0 and the configured
retention otherwise, the rotation interval given to it is 24 hours when the configured
interval is <= 0 and the configured interval otherwise, and neither effective value
depends on the other configured value; these are the values the collaborator is asked
about, and the values of every writer that `getWriter` returns. -/
theorem getWriter_defaults (isOutputStdout : Bool) (filename : String)
    (maxAge rotation : Duration) :
    (rotateLogsArgs filename maxAge rotation).maxAge =
        (if maxAge ≤ 0 then 30 * 24 * Hour else maxAge) ∧
    (rotateLogsArgs filename maxAge rotation).rotationTime =
        (if rotation ≤ 0 then 24 * Hour else rotation) ∧
    (∀ rotation' : Duration,
      (rotateLogsArgs filename maxAge rotation').maxAge =
        (rotateLogsArgs filename maxAge rotation).maxAge) ∧
    (∀ maxAge' : Duration,
      (rotateLogsArgs filename maxAge' rotation).rotationTime =
        (rotateLogsArgs filename maxAge rotation).rotationTime) ∧
    (∀ newOk : RotateLogs → Bool,
      getWriter newOk isOutputStdout filename maxAge rotation =
        if newOk (rotateLogsArgs filename maxAge rotation) = true then
          some (if isOutputStdout = true then
            Writer.multiStdout (rotateLogsArgs filename maxAge rotation)
          else Writer.hook (rotateLogsArgs filename maxAge rotation))
        else none) ∧
    (∀ (newOk : RotateLogs → Bool) (w : Writer),
      getWriter newOk isOutputStdout filename maxAge rotation = some w →
      w.rotate.maxAge = (if maxAge ≤ 0 then 30 * 24 * Hour else maxAge) ∧
      w.rotate.rotationTime = (if rotation ≤ 0 then 24 * Hour else rotation)) := by
  refine ⟨by simp [rotateLogsArgs], by simp [rotateLogsArgs], by simp [rotateLogsArgs],
    by simp [rotateLogsArgs], fun newOk => getWriter_eq newOk _ _ _ _, ?_⟩
  intro newOk w h
  rw [getWriter_rotate newOk _ _ _ _ w h]
  simp [rotateLogsArgs]

/-- The daily pattern, written as one suffix. -/
theorem daily_suffix (filename : String) :
    filename ++ "." ++ "%Y%m%d.log" = filename ++ ".%Y%m%d.log" := by
  rw [String.append_assoc]; rfl

/-- The minute pattern, written as one suffix. -/
theorem minute_suffix (filename : String) :
    filename ++ "." ++ "%Y%m%d%H%M.log" = filename ++ ".%Y%m%d%H%M.log" := by
  rw [String.append_assoc]; rfl

/-- C8 as stated fails: an interval of zero is not 24 hours, yet `getWriter` hands the
daily pattern to the rotation writer, not the minute pattern, and the writer it returns
carries the daily pattern. -/
theorem getWriter_pattern_zero_interval :
    (0 : Duration) ≠ 24 * Hour ∧
    (rotateLogsArgs "log/demo_info.log" Hour 0).pattern =
        "log/demo_info.log" ++ ".%Y%m%d.log" ∧
    (rotateLogsArgs "log/demo_info.log" Hour 0).pattern ≠
        "log/demo_info.log" ++ ".%Y%m%d%H%M.log" ∧
    (getWriter strftimeCollaborator false "log/demo_info.log" Hour 0).map
        (fun w => w.rotate.pattern) = some ("log/demo_info.log" ++ ".%Y%m%d.log") := by
  decide

/-- The pattern that `getWriter` computes. -/
theorem rotateLogsArgs_pattern (filename : String) (maxAge rotation : Duration) :
    (rotateLogsArgs filename maxAge rotation).pattern =
      (if rotation = 24 * Hour ∨ rotation ≤ 0 then filename ++ ".%Y%m%d.log"
       else filename ++ ".%Y%m%d%H%M.log") := by
  have h24 : ¬ ((24 : Int) * Hour ≤ 0) := by decide
  by_cases h0 : rotation ≤ 0
  · simp [rotateLogsArgs, h0, daily_suffix]
  · by_cases hd : rotation = 24 * Hour
    · simp [rotateLogsArgs, hd, h24, daily_suffix]
    · simp [rotateLogsArgs, h0, hd, minute_suffix]

/-- C8, amended. The pattern handed to the rotation writer is the file name followed by
the daily suffix when the configured interval is exactly 24 hours or is <= 0 (the
effective interval is then 24 hours), and by the minute suffix for every other
interval; it is the pattern the collaborator is asked about and the pattern of every
writer that `getWriter` returns. -/
theorem getWriter_pattern (isOutputStdout : Bool) (filename : String)
    (maxAge rotation : Duration) :
    (rotateLogsArgs filename maxAge rotation).pattern =
      (if rotation = 24 * Hour ∨ rotation ≤ 0 then filename ++ ".%Y%m%d.log"
       else filename ++ ".%Y%m%d%H%M.log") ∧
    (∀ newOk : RotateLogs → Bool,
      getWriter newOk isOutputStdout filename maxAge rotation =
        if newOk (rotateLogsArgs filename maxAge rotation) = true then
          some (if isOutputStdout = true then
            Writer.multiStdout (rotateLogsArgs filename maxAge rotation)
          else Writer.hook (rotateLogsArgs filename maxAge rotation))
        else none) ∧
    (∀ (newOk : RotateLogs → Bool) (w : Writer),
      getWriter newOk isOutputStdout filename maxAge rotation = some w →
      w.rotate.pattern =
        (if rotation = 24 * Hour ∨ rotation ≤ 0 then filename ++ ".%Y%m%d.log"
         else filename ++ ".%Y%m%d%H%M.log")) := by
  refine ⟨rotateLogsArgs_pattern _ _ _, fun newOk => getWriter_eq newOk _ _ _ _, ?_⟩
  intro newOk w h
  rw [getWriter_rotate newOk _ _ _ _ w h]
  exact rotateLogsArgs_pattern _ _ _

/-! ## File names (C9) -/

/-- The loop of `Clean` stops on empty input, whatever fuel is left. -/
theorem cleanLoop_nil (rooted : Bool) (fuel : Nat) (out : List Char) (dotdot : Nat) :
    cleanLoop rooted fuel [] out dotdot = out := by
  cases fuel <;> rfl

/-- What is left after copying a path element is no longer than the input. -/
theorem length_dropWhile_le (p : Char → Bool) (xs : List Char) :
    (xs.dropWhile p).length ≤ xs.length := by
  induction xs with
  | nil => simp
  | cons x xs ih =>
    simp only [List.dropWhile_cons]
    split
    · simp only [List.length_cons]; omega
    · simp

/-- Fuel beyond the length of the input does not change the result of the loop. -/
theorem cleanLoop_fuel (rooted : Bool) :
    ∀ (f1 f2 : Nat) (rest out : List Char) (dotdot : Nat),
      rest.length ≤ f1 → rest.length ≤ f2 →
      cleanLoop rooted f1 rest out dotdot = cleanLoop rooted f2 rest out dotdot := by
  intro f1
  induction f1 with
  | zero =>
    intro f2 rest out dotdot h1 _
    have : rest = [] := List.length_eq_zero.mp (by omega)
    subst this
    rw [cleanLoop_nil, cleanLoop_nil]
  | succ f1 ih =>
    intro f2 rest out dotdot h1 h2
    cases rest with
    | nil => rw [cleanLoop_nil, cleanLoop_nil]
    | cons c rest =>
      cases f2 with
      | zero => simp at h2
      | succ f2 =>
        simp only [List.length_cons] at h1 h2
        have ht : rest.tail.length ≤ rest.length := by simp
        have hd := length_dropWhile_le (fun x => x != '/') rest
        simp only [cleanLoop]
        split
        · exact ih _ _ _ _ (by omega) (by omega)
        · split
          · exact ih _ _ _ _ (by omega) (by omega)
          · split
            · split
              · exact ih _ _ _ _ (by omega) (by omega)
              · split <;> exact ih _ _ _ _ (by omega) (by omega)
            · rename_i hc _ _
              have hb : (c != '/') = true := by simpa using hc
              simp only [List.dropWhile_cons, hb, if_true]
              exact ih _ _ _ _ (by omega) (by omega)

/-- Copying a prefix without separator takes all of it. -/
theorem takeWhile_noSlash (n : List Char) (h : '/' ∉ n) :
    n.takeWhile (fun x => x != '/') = n := by
  induction n with
  | nil => rfl
  | cons x xs ih =>
    simp only [List.mem_cons, not_or] at h
    have hx : (x != '/') = true := by simpa using fun e => h.1 e.symm
    simp [List.takeWhile_cons, hx, ih h.2]

/-- After copying a prefix without separator nothing of it is left. -/
theorem dropWhile_noSlash (n : List Char) (h : '/' ∉ n) :
    n.dropWhile (fun x => x != '/') = [] := by
  induction n with
  | nil => rfl
  | cons x xs ih =>
    simp only [List.mem_cons, not_or] at h
    have hx : (x != '/') = true := by simpa using fun e => h.1 e.symm
    simp [List.dropWhile_cons, hx, ih h.2]

/-- On a plain name the loop of `Clean` adds the separator if needed and copies the name. -/
theorem cleanLoop_plain (rooted : Bool) (n : List Char) (hn : plainName n) (fuel : Nat)
    (hf : n.length ≤ fuel) (out : List Char) (dotdot : Nat) :
    cleanLoop rooted fuel n out dotdot = addSlash rooted out ++ n := by
  obtain ⟨h0, hs, h1, h2⟩ := hn
  cases n with
  | nil => exact absurd rfl h0
  | cons c rest =>
    cases fuel with
    | zero => simp at hf
    | succ fuel =>
      have hc : c ≠ '/' := fun e => hs (by simp [e])
      have hr : '/' ∉ rest := fun e => hs (List.mem_cons_of_mem _ e)
      have c2 : ¬ (c = '.' ∧ (rest = [] ∨ rest.head? = some '/')) := by
        rintro ⟨rfl, h | h⟩
        · exact h1 (by rw [h])
        · cases rest with
          | nil => simp at h
          | cons x xs => simp at h; exact hr (by simp [h])
      have c3 : ¬ (c = '.' ∧ rest.head? = some '.' ∧
          (rest.tail = [] ∨ rest.tail.head? = some '/')) := by
        rintro ⟨rfl, hh, h⟩
        cases rest with
        | nil => simp at hh
        | cons x xs =>
          simp only [List.head?_cons, Option.some.injEq] at hh
          subst hh
          simp only [List.tail_cons] at h
          rcases h with h | h
          · exact h2 (by rw [h])
          · cases xs with
            | nil => simp at h
            | cons y ys => simp at h; exact hr (by simp [h])
      simp only [cleanLoop, hc, c2, c3, if_false]
      rw [takeWhile_noSlash _ hs, dropWhile_noSlash _ hs, cleanLoop_nil]

/-- Copying a path element stops at the first separator: what follows it is not read. -/
theorem takeWhile_append_slash (xs ys : List Char) :
    (xs ++ '/' :: ys).takeWhile (fun x => x != '/') = xs.takeWhile (fun x => x != '/') := by
  induction xs with
  | nil => simp [List.takeWhile_cons]
  | cons x xs ih =>
    simp only [List.cons_append, List.takeWhile_cons]
    split
    · rw [ih]
    · rfl

/-- What is left after copying a path element keeps everything behind a later separator. -/
theorem dropWhile_append_slash (xs ys : List Char) :
    (xs ++ '/' :: ys).dropWhile (fun x => x != '/') =
      xs.dropWhile (fun x => x != '/') ++ '/' :: ys := by
  induction xs with
  | nil => simp [List.dropWhile_cons]
  | cons x xs ih =>
    simp only [List.cons_append, List.dropWhile_cons]
    split
    · rw [ih]
    · rfl

/-- The "." test of `Clean` does not look behind the next separator. -/
theorem dot_cond_append (rest ys : List Char) :
    (rest ++ '/' :: ys = [] ∨ (rest ++ '/' :: ys).head? = some '/') ↔
      (rest = [] ∨ rest.head? = some '/') := by
  cases rest with
  | nil => simp
  | cons x xs => simp

/-- The ".." test of `Clean` does not look behind the next separator. -/
theorem dotdot_cond_append (rest ys : List Char) :
    ((rest ++ '/' :: ys).head? = some '.' ∧
      ((rest ++ '/' :: ys).tail = [] ∨ (rest ++ '/' :: ys).tail.head? = some '/')) ↔
    (rest.head? = some '.' ∧ (rest.tail = [] ∨ rest.tail.head? = some '/')) := by
  cases rest with
  | nil => simp
  | cons x xs =>
    cases xs with
    | nil => simp
    | cons y ys => simp

/-- After a ".." test succeeded, the input behind the element keeps the later suffix. -/
theorem tail_append_of_head (rest ys : List Char) (h : rest.head? = some '.') :
    (rest ++ '/' :: ys).tail = rest.tail ++ '/' :: ys := by
  cases rest with
  | nil => simp at h
  | cons x xs => rfl

/-- One iteration of the loop of `Clean` on non-empty input. -/
theorem cleanLoop_cons (rooted : Bool) (fuel : Nat) (c : Char) (rest out : List Char)
    (dotdot : Nat) :
    cleanLoop rooted (fuel + 1) (c :: rest) out dotdot =
      if c = '/' then cleanLoop rooted fuel rest out dotdot
      else if c = '.' ∧ (rest = [] ∨ rest.head? = some '/') then
        cleanLoop rooted fuel rest out dotdot
      else if c = '.' ∧ rest.head? = some '.' ∧
          (rest.tail = [] ∨ rest.tail.head? = some '/') then
        if dotdot < out.length then
          cleanLoop rooted fuel rest.tail
            (out.take (cleanBacktrack out dotdot (out.length - 1))) dotdot
        else if !rooted then
          cleanLoop rooted fuel rest.tail
            ((if 0 < out.length then out ++ ['/'] else out) ++ ['.', '.'])
            ((if 0 < out.length then out ++ ['/'] else out) ++ ['.', '.']).length
        else
          cleanLoop rooted fuel rest.tail out dotdot
      else
        cleanLoop rooted fuel ((c :: rest).dropWhile (fun x => x != '/'))
          (addSlash rooted out ++ (c :: rest).takeWhile (fun x => x != '/')) dotdot := by
  simp only [cleanLoop]

/-- Cleaning a path that ends in a separator and a plain name: the loop treats the part
before the separator as if it stood alone, then adds the separator if needed and the
name. -/
theorem cleanLoop_append_plain (rooted : Bool) (n : List Char) (hn : plainName n) :
    ∀ (fuel : Nat) (rest out : List Char) (dotdot : Nat),
      rest.length + 1 + n.length ≤ fuel →
      cleanLoop rooted fuel (rest ++ '/' :: n) out dotdot =
        addSlash rooted (cleanLoop rooted fuel rest out dotdot) ++ n := by
  intro fuel
  induction fuel with
  | zero => intro rest out dotdot h; omega
  | succ fuel ih =>
    intro rest out dotdot h
    cases rest with
    | nil =>
      have e : cleanLoop rooted (fuel + 1) ('/' :: n) out dotdot =
          cleanLoop rooted fuel n out dotdot := by
        simp [cleanLoop]
      simp only [List.nil_append, List.length_nil] at h ⊢
      rw [e, cleanLoop_nil, cleanLoop_plain rooted n hn fuel (by omega)]
    | cons c rest =>
      simp only [List.length_cons] at h
      have ht : rest.tail.length ≤ rest.length := by simp
      have hd := length_dropWhile_le (fun x => x != '/') rest
      rw [List.cons_append, cleanLoop_cons, cleanLoop_cons]
      simp only [dot_cond_append, dotdot_cond_append]
      split
      · exact ih _ _ _ (by omega)
      · split
        · exact ih _ _ _ (by omega)
        · split
          · rename_i h3
            rw [tail_append_of_head rest n h3.2.1]
            split
            · exact ih _ _ _ (by omega)
            · split <;> exact ih _ _ _ (by omega)
          · rename_i hc _ _
            have hb : (c != '/') = true := by simpa using hc
            simp only [List.dropWhile_cons, List.takeWhile_cons, hb, if_true,
              takeWhile_append_slash, dropWhile_append_slash]
            exact ih _ _ _ (by omega)

/-- Joining a non-empty directory with a second element cleans `dir/elem`. -/
theorem filepathJoin_pair (dir name : String) (hd : dir ≠ "") :
    filepathJoin [dir, name] = Clean (dir ++ "/" ++ name) := by
  unfold filepathJoin
  have : List.dropWhile (fun e => decide (e = "")) [dir, name] = [dir, name] := by
    simp [List.dropWhile_cons, hd]
  rw [this]
  rfl

/-- Joining a non-empty directory with a plain file name yields a path that ends in the
name, after a prefix that only depends on the directory. -/
theorem filepathJoin_plain (dir : String) (hd : dir ≠ "") :
    ∃ pre : List Char, ∀ name : String, plainName name.data →
      filepathJoin [dir, name] = String.mk (pre ++ name.data) := by
  have hdd : dir.data ≠ [] := fun h => hd (String.ext h)
  obtain ⟨c, cs, hcs⟩ : ∃ c cs, dir.data = c :: cs := by
    cases h : dir.data with
    | nil => exact absurd h hdd
    | cons c cs => exact ⟨c, cs, rfl⟩
  by_cases hr : c = '/'
  · refine ⟨addSlash true (cleanLoop true cs.length cs ['/'] 1), ?_⟩
    intro name hn
    have hne : name.data ≠ [] := hn.1
    have hp : dir ++ "/" ++ name ≠ "" := by
      intro h
      have := congrArg String.data h
      simp [hcs] at this
    have hdata : (dir ++ "/" ++ name).data = '/' :: (cs ++ '/' :: name.data) := by
      simp [hcs, hr]
    rw [filepathJoin_pair dir name hd]
    unfold Clean
    simp only [hp, if_false, hdata, List.head?_cons, if_true, List.tail_cons]
    rw [cleanLoop_append_plain true name.data hn _ cs ['/'] 1 (by simp; omega),
      cleanLoop_fuel true _ cs.length cs ['/'] 1 (by simp; omega) (le_refl _)]
    simp [hne]
  · refine ⟨addSlash false (cleanLoop false (c :: cs).length (c :: cs) [] 0), ?_⟩
    intro name hn
    have hne : name.data ≠ [] := hn.1
    have hp : dir ++ "/" ++ name ≠ "" := by
      intro h
      have := congrArg String.data h
      simp [hcs] at this
    have hdata : (dir ++ "/" ++ name).data = (c :: cs) ++ '/' :: name.data := by
      simp [hcs]
    have hh : ((c :: cs) ++ '/' :: name.data).head? ≠ some '/' := by
      simpa using hr
    rw [filepathJoin_pair dir name hd]
    unfold Clean
    simp only [hp, if_false, hdata, hh]
    rw [cleanLoop_append_plain false name.data hn _ (c :: cs) [] 0 (by simp; omega),
      cleanLoop_fuel false _ (c :: cs).length (c :: cs) [] 0 (by simp) (le_refl _)]
    simp [hne]

/-- Two names with a common prefix and different suffixes are different. -/
theorem append_ne_of_ne (p a b : String) (h : a ≠ b) : p ++ a ≠ p ++ b := by
  intro e
  apply h
  have := congrArg String.data e
  simp only [String.data_append, List.append_cancel_left_eq] at this
  exact String.ext this

/-- Two paths with a common prefix and different last elements are different. -/
theorem mk_append_ne_of_ne (pre : List Char) (a b : String) (h : a ≠ b) :
    String.mk (pre ++ a.data) ≠ String.mk (pre ++ b.data) := by
  intro e
  apply h
  have := congrArg String.data e
  simp only [List.append_cancel_left_eq] at this
  exact String.ext this

/-- Every file sink of the pipeline writes to the file `InitLogger` derived for its floor. -/
theorem file_sink_path (newOk : RotateLogs → Bool) (l l' : logger)
    (h : InitLogger newOk l = some l') (s : Sink) (hs : s ∈ pipeline l')
    (hf : s.isFile = true) :
    (s.floor = some DebugLevel → s.path = some (debugFileName l)) ∧
    (s.floor = some InfoLevel → s.path = some (infoFileName l)) ∧
    (s.floor = some WarnLevel → s.path = some (warnFileName l)) ∧
    (s.floor = some ErrorLevel → s.path = some (errFileName l)) := by
  rw [mem_pipeline newOk l l' h] at hs
  rcases hs with ⟨_, h | h | h | h | h⟩ | h
  · obtain ⟨_, rfl⟩ := h
    simp [Sink.floor, Sink.path, fileCore, floorHook, Writer.rotate, rotateLogsArgs_linkName,
      floorFileName, DebugLevel, InfoLevel, WarnLevel, ErrorLevel]
  · obtain ⟨_, rfl⟩ := h
    simp [Sink.floor, Sink.path, fileCore, floorHook, Writer.rotate, rotateLogsArgs_linkName,
      floorFileName, DebugLevel, InfoLevel, WarnLevel, ErrorLevel]
  · obtain ⟨_, rfl⟩ := h
    simp [Sink.floor, Sink.path, fileCore, floorHook, Writer.rotate, rotateLogsArgs_linkName,
      floorFileName, DebugLevel, InfoLevel, WarnLevel, ErrorLevel]
  · obtain ⟨_, rfl⟩ := h
    simp [Sink.floor, Sink.path, fileCore, floorHook, Writer.rotate, rotateLogsArgs_linkName,
      floorFileName, DebugLevel, InfoLevel, WarnLevel, ErrorLevel]
  · obtain ⟨_, rfl⟩ := h
    simp [Sink.isFile] at hf
  · obtain ⟨_, rfl⟩ := h
    simp [Sink.isFile] at hf

/-- C9. With a non-empty output directory, the four file names of `InitLogger` are
`Join(dir, base)` followed by `_debug.log`, `_info.log`, `_warn.log`, `_err.log` when the
base name is non-empty, and `Join(dir, "access.log")`, `Join(dir, "info.log")`,
`Join(dir, "warn.log")`, `Join(dir, "error.log")` when it is empty; the four names are
pairwise distinct; and the file sinks of floors Debug, Info, Warn, Error write to them in
this order. -/
theorem file_names (l : logger) (hd : l.logPath ≠ "") :
    (l.fileName ≠ "" →
      debugFileName l = filepathJoin [l.logPath, l.fileName] ++ "_debug.log" ∧
      infoFileName l = filepathJoin [l.logPath, l.fileName] ++ "_info.log" ∧
      warnFileName l = filepathJoin [l.logPath, l.fileName] ++ "_warn.log" ∧
      errFileName l = filepathJoin [l.logPath, l.fileName] ++ "_err.log") ∧
    (l.fileName = "" →
      debugFileName l = filepathJoin [l.logPath, "access.log"] ∧
      infoFileName l = filepathJoin [l.logPath, "info.log"] ∧
      warnFileName l = filepathJoin [l.logPath, "warn.log"] ∧
      errFileName l = filepathJoin [l.logPath, "error.log"]) ∧
    [debugFileName l, infoFileName l, warnFileName l, errFileName l].Nodup ∧
    (∀ (newOk : RotateLogs → Bool) (l' : logger), InitLogger newOk l = some l' →
      ∀ s : Sink, s ∈ pipeline l' → s.isFile = true →
      (s.floor = some DebugLevel → s.path = some (debugFileName l)) ∧
      (s.floor = some InfoLevel → s.path = some (infoFileName l)) ∧
      (s.floor = some WarnLevel → s.path = some (warnFileName l)) ∧
      (s.floor = some ErrorLevel → s.path = some (errFileName l))) := by
  refine ⟨?_, ?_, ?_, fun newOk l' h => file_sink_path newOk l l' h⟩
  · intro hb
    simp [debugFileName, infoFileName, warnFileName, errFileName, hb]
  · intro hb
    simp [debugFileName, infoFileName, warnFileName, errFileName, hb]
  · by_cases hb : l.fileName = ""
    · obtain ⟨pre, hpre⟩ := filepathJoin_plain l.logPath hd
      have p1 : plainName ("access.log" : String).data := by unfold plainName; decide
      have p2 : plainName ("info.log" : String).data := by unfold plainName; decide
      have p3 : plainName ("warn.log" : String).data := by unfold plainName; decide
      have p4 : plainName ("error.log" : String).data := by unfold plainName; decide
      simp only [debugFileName, infoFileName, warnFileName, errFileName, hb, ne_eq,
        not_true_eq_false, if_false, hpre _ p1, hpre _ p2, hpre _ p3, hpre _ p4]
      simp only [List.nodup_cons, List.mem_cons, List.mem_singleton, List.not_mem_nil,
        List.nodup_nil, not_or, not_false_eq_true, and_true]
      exact ⟨⟨mk_append_ne_of_ne _ _ _ (by decide), mk_append_ne_of_ne _ _ _ (by decide),
        mk_append_ne_of_ne _ _ _ (by decide)⟩,
        ⟨mk_append_ne_of_ne _ _ _ (by decide), mk_append_ne_of_ne _ _ _ (by decide)⟩,
        mk_append_ne_of_ne _ _ _ (by decide)⟩
    · simp only [debugFileName, infoFileName, warnFileName, errFileName, hb, ne_eq,
        not_false_eq_true, if_true]
      simp only [List.nodup_cons, List.mem_cons, List.mem_singleton, List.not_mem_nil,
        List.nodup_nil, not_or, not_false_eq_true, and_true]
      exact ⟨⟨append_ne_of_ne _ _ _ (by decide), append_ne_of_ne _ _ _ (by decide),
        append_ne_of_ne _ _ _ (by decide)⟩,
        ⟨append_ne_of_ne _ _ _ (by decide), append_ne_of_ne _ _ _ (by decide)⟩,
        append_ne_of_ne _ _ _ (by decide)⟩

/-- C9, at the configuration of `TestNew` (directory `./log`, base name `demo`). -/
theorem file_names_witness :
    (testNewLogger.fileName ≠ "" →
      debugFileName testNewLogger =
        filepathJoin [testNewLogger.logPath, testNewLogger.fileName] ++ "_debug.log" ∧
      infoFileName testNewLogger =
        filepathJoin [testNewLogger.logPath, testNewLogger.fileName] ++ "_info.log" ∧
      warnFileName testNewLogger =
        filepathJoin [testNewLogger.logPath, testNewLogger.fileName] ++ "_warn.log" ∧
      errFileName testNewLogger =
        filepathJoin [testNewLogger.logPath, testNewLogger.fileName] ++ "_err.log") ∧
    (testNewLogger.fileName = "" →
      debugFileName testNewLogger = filepathJoin [testNewLogger.logPath, "access.log"] ∧
      infoFileName testNewLogger = filepathJoin [testNewLogger.logPath, "info.log"] ∧
      warnFileName testNewLogger = filepathJoin [testNewLogger.logPath, "warn.log"] ∧
      errFileName testNewLogger = filepathJoin [testNewLogger.logPath, "error.log"]) ∧
    [debugFileName testNewLogger, infoFileName testNewLogger, warnFileName testNewLogger,
      errFileName testNewLogger].Nodup ∧
    (∀ (newOk : RotateLogs → Bool) (l' : logger),
      InitLogger newOk testNewLogger = some l' →
      ∀ s : Sink, s ∈ pipeline l' → s.isFile = true →
      (s.floor = some DebugLevel → s.path = some (debugFileName testNewLogger)) ∧
      (s.floor = some InfoLevel → s.path = some (infoFileName testNewLogger)) ∧
      (s.floor = some WarnLevel → s.path = some (warnFileName testNewLogger)) ∧
      (s.floor = some ErrorLevel → s.path = some (errFileName testNewLogger))) :=
  file_names testNewLogger (by decide)

/-! ## Context enrichment (C10) -/

/-- C10. On an initialised logger, for every severity, context ctx, explicit mapping m,
template and arguments: with a registered enricher e, the fields attached by the
`*ContextWithFields` form are exactly `with(e(ctx, m))` and those attached by the
`*Context` form are exactly `with(e(ctx, {}))`; without an enricher they are exactly
`with(m)` and `with({})` (no field). -/
theorem context_fields (l : logger) (hinit : l.sugarLog.isSome = true) (sev : Severity)
    (ctx : Context) (m : Fields) (template : String) (args : List Value) :
    (∀ e : Context → Fields → Fields, l.addFieldFunc = some e →
      (ContextWithFields sev l ctx m template args).map LogCall.fields =
          some (with_ (e ctx m)) ∧
      (ContextLog sev l ctx template args).map LogCall.fields = some (with_ (e ctx []))) ∧
    (l.addFieldFunc = none →
      (ContextWithFields sev l ctx m template args).map LogCall.fields = some (with_ m) ∧
      (ContextLog sev l ctx template args).map LogCall.fields = some (with_ []) ∧
      with_ [] = []) := by
  obtain ⟨z, hz⟩ := Option.isSome_iff_exists.mp hinit
  constructor
  · intro e he
    constructor <;>
      (simp only [ContextWithFields, ContextLog, addField, he, hz]
       split <;> rfl)
  · intro he
    refine ⟨?_, ?_, rfl⟩ <;>
      (simp only [ContextWithFields, ContextLog, addField, he, hz]
       split <;> rfl)

/-- C10, at the logger of `TestNew`: an Info record with the explicit field `k1` and a
context carrying `diy`. -/
theorem context_fields_witness :
    (∀ e : Context → Fields → Fields, testNewInit.addFieldFunc = some e →
      (ContextWithFields Severity.info testNewInit [(Value.str "diy", Value.str "abc")]
          [("k1", Value.str "sss")] "InfoContext" []).map LogCall.fields =
          some (with_ (e [(Value.str "diy", Value.str "abc")] [("k1", Value.str "sss")])) ∧
      (ContextLog Severity.info testNewInit [(Value.str "diy", Value.str "abc")]
          "InfoContext" []).map LogCall.fields =
          some (with_ (e [(Value.str "diy", Value.str "abc")] []))) ∧
    (testNewInit.addFieldFunc = none →
      (ContextWithFields Severity.info testNewInit [(Value.str "diy", Value.str "abc")]
          [("k1", Value.str "sss")] "InfoContext" []).map LogCall.fields =
          some (with_ [("k1", Value.str "sss")]) ∧
      (ContextLog Severity.info testNewInit [(Value.str "diy", Value.str "abc")]
          "InfoContext" []).map LogCall.fields = some (with_ []) ∧
      with_ [] = []) :=
  context_fields testNewInit (by rfl) Severity.info [(Value.str "diy", Value.str "abc")]
    [("k1", Value.str "sss")] "InfoContext" []

/-! ## Default pipeline (C11) -/

/-- C11 as stated fails on a logger freshly returned by `New()`: both engine handles are
nil, there is no pipeline, and a logging call (here `Info("x")`) dereferences the nil
handle instead of succeeding. -/
theorem fresh_logger_call_fails :
    New.sugarLog = none ∧ New.zapLogger = none ∧ pipeline New = [] ∧
    LogArgs Severity.info New [Value.str "x"] = none := by
  refine ⟨rfl, rfl, rfl, rfl⟩

/-- The package initializer never panics: whatever the rotation collaborator, the default
instance exists, with the sugared handle over the console core at Info and caller skip 2. -/
theorem default_sugarLog (newOk : RotateLogs → Bool) :
    ∃ d : logger, _log newOk = some d ∧ d.level = InfoLevel ∧
      d.sugarLog = some (ZapLogger.mk
        [Sink.mk (Encoder.mk false false) Dest.stdout (Enabler.floor InfoLevel)] true 2 "") := by
  have hc : outCore newOk (SetCallerSkip New 2) =
      some [Sink.mk (Encoder.mk false false) Dest.stdout (Enabler.floor InfoLevel)] :=
    outCore_console newOk (SetCallerSkip New 2) rfl
  refine ⟨{ SetCallerSkip New 2 with
      zapLogger := some (ZapLogger.mk
        [Sink.mk (Encoder.mk false false) Dest.stdout (Enabler.floor InfoLevel)] true 2 "")
      sugarLog := some (ZapLogger.mk
        [Sink.mk (Encoder.mk false false) Dest.stdout (Enabler.floor InfoLevel)] true 2 "") },
    ?_, rfl, rfl⟩
  unfold _log InitLogger
  rw [hc]
  rfl

/-- A fresh logger put through `InitLogger` gets the default pipeline, whatever the
rotation collaborator. -/
theorem fresh_InitLogger (newOk : RotateLogs → Bool) :
    ∃ l' : logger, InitLogger newOk New = some l' ∧
      pipeline l' = [Sink.mk (Encoder.mk false false) Dest.stdout (Enabler.floor InfoLevel)] := by
  have hc : outCore newOk New =
      some [Sink.mk (Encoder.mk false false) Dest.stdout (Enabler.floor InfoLevel)] :=
    outCore_console newOk New rfl
  refine ⟨{ New with
      zapLogger := some (ZapLogger.mk
        [Sink.mk (Encoder.mk false false) Dest.stdout (Enabler.floor InfoLevel)] true 1 "")
      sugarLog := some (ZapLogger.mk
        [Sink.mk (Encoder.mk false false) Dest.stdout (Enabler.floor InfoLevel)] true 1 "") },
    ?_, rfl⟩
  unfold InitLogger
  rw [hc]
  rfl

/-- C11, amended. The default instance, which the package initializer has put through
`InitLogger`, exists whatever the rotation collaborator, and on it every logging method of
every severity and call shape succeeds before the caller initializes anything, on the
default pipeline: one console sink, human-readable encoding, Info floor.  A logger freshly
returned by `New()` has no pipeline until `InitLogger` is called on it; `InitLogger` then
builds that same default pipeline. -/
theorem default_instance_pipeline (newOk : RotateLogs → Bool) (sev : Severity)
    (ctx : Context) (fields : Fields) (template : String) (args : List Value) :
    (∃ d : logger, _log newOk = some d ∧
      ((LogArgs sev d args).isSome = true ∧
        (LogTemplate sev d template args).isSome = true ∧
        (LogWithFields sev d fields template args).isSome = true ∧
        (ContextLog sev d ctx template args).isSome = true ∧
        (ContextWithFields sev d ctx fields template args).isSome = true) ∧
      pipeline d = [Sink.mk (Encoder.mk false false) Dest.stdout (Enabler.floor InfoLevel)] ∧
      (∀ R : Level, accepts d
          (Sink.mk (Encoder.mk false false) Dest.stdout (Enabler.floor InfoLevel)) R = true ↔
        R ≥ InfoLevel)) ∧
    pipeline New = [] ∧
    (∃ l' : logger, InitLogger newOk New = some l' ∧
      pipeline l' =
        [Sink.mk (Encoder.mk false false) Dest.stdout (Enabler.floor InfoLevel)]) := by
  obtain ⟨d, hd, _, hs⟩ := default_sugarLog newOk
  refine ⟨⟨d, hd, ⟨?_, ?_, ?_, ?_, ?_⟩, ?_, ?_⟩, rfl, fresh_InitLogger newOk⟩
  · simp [LogArgs, hs]
  · simp [LogTemplate, hs]
  · simp only [LogWithFields, hs]
    split <;> rfl
  · simp only [ContextLog, hs]
    split <;> rfl
  · simp only [ContextWithFields, hs]
    split <;> rfl
  · simp [pipeline, hs]
  · intro R
    simp [accepts, Enabler.Enabled]

/-! ## Setters and getters (C12, C13) -/

/-- C12 as stated fails: after `SetFileRotate(0, time.Hour)` followed by
`SetOutputFile("./log", "demo")`, `GetFileRotate` returns the defaults (30 days, 24 hours),
not the arguments (0, 1 hour) of the most recent `SetFileRotate`. -/
theorem getFileRotate_after_setOutputFile :
    GetFileRotate (SetOutputFile (SetFileRotate New 0 Hour) "./log" "demo") =
        (30 * 24 * Hour, 24 * Hour) ∧
    GetFileRotate (SetOutputFile (SetFileRotate New 0 Hour) "./log" "demo") ≠ (0, Hour) := by
  decide

/-- A field that only one setter writes holds the last argument of that setter: the
general step, for a field `get` and the selector `sel` of its setter. -/
theorem last_arg_frame {α : Type} (get : logger → α) (sel : SetterCall → Option α)
    (hset : ∀ l c v, sel c = some v → get (applyCall l c) = v)
    (hframe : ∀ l c, sel c = none → get (applyCall l c) = get l) :
    ∀ (calls : List SetterCall) (l : logger),
      get (applyCalls l calls) = (lastArg sel calls).getD (get l) := by
  intro calls
  induction calls with
  | nil => intro l; rfl
  | cons c cs ih =>
    intro l
    simp only [applyCalls, lastArg]
    rw [ih (applyCall l c)]
    cases hcs : lastArg sel cs with
    | some v => rfl
    | none =>
      cases hc : sel c with
      | some v => simp [hset l c v hc]
      | none => simp [hframe l c hc]

/-- The rotation pair survives every call once its retention is non-zero. -/
theorem fileRotate_frame (l : logger) (c : SetterCall) (h0 : l.fileMaxAge ≠ 0)
    (hc : argFileRotate c = none) : GetFileRotate (applyCall l c) = GetFileRotate l := by
  cases c <;>
    simp_all [applyCall, argFileRotate, GetFileRotate, SetName, SetCallerSkip,
      SetIsOutputStdout, SetCallerShort, SetOutputJson, SetLevel, SetOutputFile, AddFieldFunc]

/-- After a sequence of calls `GetFileRotate` returns the arguments of the last
`SetFileRotate` (the starting pair when there is none), when the retention of that pair is
non-zero. -/
theorem fileRotate_last :
    ∀ (calls : List SetterCall) (l : logger),
      ((lastArg argFileRotate calls).getD (GetFileRotate l)).1 ≠ 0 →
      GetFileRotate (applyCalls l calls) =
        (lastArg argFileRotate calls).getD (GetFileRotate l) := by
  intro calls
  induction calls with
  | nil => intro l _; rfl
  | cons c cs ih =>
    intro l h
    simp only [applyCalls, lastArg] at h ⊢
    cases hcs : lastArg argFileRotate cs with
    | some v =>
      rw [hcs] at h
      have := ih (applyCall l c) (by rw [hcs]; exact h)
      rw [this, hcs]
      rfl
    | none =>
      rw [hcs] at h
      cases hc : argFileRotate c with
      | some v =>
        rw [hc] at h
        have hv : GetFileRotate (applyCall l c) = v := by
          cases c <;> simp_all [argFileRotate, applyCall, SetFileRotate, GetFileRotate]
        have := ih (applyCall l c) (by rw [hcs]; simpa [hv] using h)
        rw [this, hcs]
        simp [hv]
      | none =>
        rw [hc] at h
        have h0 : l.fileMaxAge ≠ 0 := by simpa [GetFileRotate] using h
        have hv := fileRotate_frame l c h0 hc
        have := ih (applyCall l c) (by rw [hcs]; simpa [hv] using h)
        rw [this, hcs]
        simp [hv]

/-- C12, amended. For every starting configuration and every sequence of setter calls,
each of `GetLevel`, `GetName`, `GetCallerShort`, `GetOutputJson`, `GetIsOutputStdout`,
`GetCallerSkip` and `GetOutputFile` returns the arguments of the most recent call of its
paired setter (the starting value when there is none), whatever other setters are called
in between; `GetFileRotate` does so whenever the retention of that pair is non-zero; in
particular `GetFileRotate` after `SetFileRotate(a, r)` and `SetOutputFile(p, f)` returns
`(a, r)` when `a` is non-zero. -/
theorem getters_return_last_args (l : logger) (calls : List SetterCall) :
    GetLevel (applyCalls l calls) = (lastArg argLevel calls).getD (GetLevel l) ∧
    GetName (applyCalls l calls) = (lastArg argName calls).getD (GetName l) ∧
    GetCallerShort (applyCalls l calls) =
      (lastArg argCallerShort calls).getD (GetCallerShort l) ∧
    GetOutputJson (applyCalls l calls) =
      (lastArg argOutputJson calls).getD (GetOutputJson l) ∧
    GetIsOutputStdout (applyCalls l calls) =
      (lastArg argIsOutputStdout calls).getD (GetIsOutputStdout l) ∧
    GetCallerSkip (applyCalls l calls) =
      (lastArg argCallerSkip calls).getD (GetCallerSkip l) ∧
    GetOutputFile (applyCalls l calls) =
      (lastArg argOutputFile calls).getD (GetOutputFile l) ∧
    (((lastArg argFileRotate calls).getD (GetFileRotate l)).1 ≠ 0 →
      GetFileRotate (applyCalls l calls) =
        (lastArg argFileRotate calls).getD (GetFileRotate l)) ∧
    (∀ (a r : Duration) (p f : String), a ≠ 0 →
      GetFileRotate (SetOutputFile (SetFileRotate l a r) p f) = (a, r)) := by
  refine ⟨?_, ?_, ?_, ?_, ?_, ?_, ?_, fileRotate_last calls l, ?_⟩
  · refine last_arg_frame GetLevel argLevel ?_ ?_ calls l
    · intro l c v h
      cases c <;> simp_all [argLevel, applyCall, SetLevel, GetLevel]
    · intro l c h
      cases c <;>
        simp_all [argLevel, applyCall, GetLevel, SetName, SetCallerSkip, SetIsOutputStdout,
          SetFileRotate, SetCallerShort, SetOutputJson, SetOutputFile, AddFieldFunc]
      split <;> rfl
  · refine last_arg_frame GetName argName ?_ ?_ calls l
    · intro l c v h
      cases c <;> simp_all [argName, applyCall, SetName, GetName]
    · intro l c h
      cases c <;>
        simp_all [argName, applyCall, GetName, SetLevel, SetCallerSkip, SetIsOutputStdout,
          SetFileRotate, SetCallerShort, SetOutputJson, SetOutputFile, AddFieldFunc]
      split <;> rfl
  · refine last_arg_frame GetCallerShort argCallerShort ?_ ?_ calls l
    · intro l c v h
      cases c <;> simp_all [argCallerShort, applyCall, SetCallerShort, GetCallerShort]
    · intro l c h
      cases c <;>
        simp_all [argCallerShort, applyCall, GetCallerShort, SetLevel, SetCallerSkip,
          SetIsOutputStdout, SetFileRotate, SetName, SetOutputJson, SetOutputFile,
          AddFieldFunc]
      split <;> rfl
  · refine last_arg_frame GetOutputJson argOutputJson ?_ ?_ calls l
    · intro l c v h
      cases c <;> simp_all [argOutputJson, applyCall, SetOutputJson, GetOutputJson]
    · intro l c h
      cases c <;>
        simp_all [argOutputJson, applyCall, GetOutputJson, SetLevel, SetCallerSkip,
          SetIsOutputStdout, SetFileRotate, SetName, SetCallerShort, SetOutputFile,
          AddFieldFunc]
      split <;> rfl
  · refine last_arg_frame GetIsOutputStdout argIsOutputStdout ?_ ?_ calls l
    · intro l c v h
      cases c <;> simp_all [argIsOutputStdout, applyCall, SetIsOutputStdout, GetIsOutputStdout]
    · intro l c h
      cases c <;>
        simp_all [argIsOutputStdout, applyCall, GetIsOutputStdout, SetLevel, SetCallerSkip,
          SetOutputJson, SetFileRotate, SetName, SetCallerShort, SetOutputFile, AddFieldFunc]
      split <;> rfl
  · refine last_arg_frame GetCallerSkip argCallerSkip ?_ ?_ calls l
    · intro l c v h
      cases c <;> simp_all [argCallerSkip, applyCall, SetCallerSkip, GetCallerSkip]
    · intro l c h
      cases c <;>
        simp_all [argCallerSkip, applyCall, GetCallerSkip, SetLevel, SetIsOutputStdout,
          SetOutputJson, SetFileRotate, SetName, SetCallerShort, SetOutputFile, AddFieldFunc]
      split <;> rfl
  · refine last_arg_frame GetOutputFile argOutputFile ?_ ?_ calls l
    · intro l c v h
      cases c <;> simp_all [argOutputFile, applyCall, SetOutputFile, GetOutputFile]
      split <;> simp_all
    · intro l c h
      cases c <;>
        simp_all [argOutputFile, applyCall, GetOutputFile, SetLevel, SetIsOutputStdout,
          SetOutputJson, SetFileRotate, SetName, SetCallerShort, SetCallerSkip, AddFieldFunc]
  · intro a r p f ha
    simp [GetFileRotate, SetOutputFile, SetFileRotate, ha]

/-- C12, amended, on the calls of `TestNew` in the order that the claim singles out:
`SetFileRotate(time.Hour, 200*time.Minute)`, then `SetOutputFile`, then `SetLevel`. -/
theorem getters_return_last_args_witness :
    GetFileRotate (applyCalls New
      [SetterCall.setFileRotate Hour (200 * Minute), SetterCall.setOutputFile "./log" "demo",
        SetterCall.setLevel DebugLevel]) = (Hour, 200 * Minute) :=
  (getters_return_last_args New
    [SetterCall.setFileRotate Hour (200 * Minute), SetterCall.setOutputFile "./log" "demo",
      SetterCall.setLevel DebugLevel]).2.2.2.2.2.2.2.1 (by decide)

/-- C13. For every starting configuration and every setter call, making the call twice
with the same arguments leaves the same configuration as making it once, so `InitLogger`
afterwards behaves the same in both cases, whatever the rotation collaborator: it installs
the same engine logger, with the same sinks (floors, file paths, rotation parameters,
encoder) and the same caller skip and name, or panics in both. -/
theorem setter_twice_eq_once (l : logger) (c : SetterCall) :
    applyCall (applyCall l c) c = applyCall l c ∧
    (∀ newOk : RotateLogs → Bool,
      InitLogger newOk (applyCall (applyCall l c) c) = InitLogger newOk (applyCall l c)) ∧
    (∀ newOk : RotateLogs → Bool,
      (InitLogger newOk (applyCall (applyCall l c) c)).map pipeline =
        (InitLogger newOk (applyCall l c)).map pipeline) ∧
    (∀ newOk : RotateLogs → Bool,
      (InitLogger newOk (applyCall (applyCall l c) c)).map logger.zapLogger =
        (InitLogger newOk (applyCall l c)).map logger.zapLogger) := by
  have h : applyCall (applyCall l c) c = applyCall l c := by
    cases c with
    | setOutputFile p f =>
      have h30 : (30 : Int) * 24 * Hour ≠ 0 := by decide
      by_cases h0 : l.fileMaxAge = 0
      · simp [applyCall, SetOutputFile, h0, h30]
      · simp [applyCall, SetOutputFile, h0]
    | _ => rfl
  exact ⟨h, fun _ => by rw [h], fun _ => by rw [h], fun _ => by rw [h]⟩

/-! ## `StringLevel` (C14) -/

/-- On a string of ASCII characters every lower-casing that is the usual one on ASCII
gives the same result. -/
theorem ToLower_ascii (lower : Char → Char)
    (hascii : ∀ c : Char, c.toNat < 128 → lower c = c.toLower) (s : String)
    (hs : ∀ c ∈ s.data, c.toNat < 128) : ToLower lower s = ToLower Char.toLower s := by
  unfold ToLower
  congr 1
  exact List.map_congr_left (fun c hc => hascii c (hs c hc))

/-- On a string of ASCII characters `StringLevel` does not depend on how characters
outside ASCII are lower-cased. -/
theorem StringLevel_ascii (lower : Char → Char)
    (hascii : ∀ c : Char, c.toNat < 128 → lower c = c.toLower) (s : String)
    (hs : ∀ c ∈ s.data, c.toNat < 128) : StringLevel lower s = StringLevel Char.toLower s := by
  unfold StringLevel
  rw [ToLower_ascii lower hascii s hs]

/-- C14. `StringLevel` is total and case-insensitive: whatever the string, it returns
Debug, Info, Warn or Error when the lower-cased string is exactly "debug", "info", "warn"
or "error", and Info for every other string; the result is always one of the four floors
and only depends on the lower-cased string.  In particular "", "warning", "fatal", "panic"
and a name with surrounding blanks give Info, and upper or mixed case spellings of the
four names give their level. -/
theorem StringLevel_total (lower : Char → Char)
    (hascii : ∀ c : Char, c.toNat < 128 → lower c = c.toLower) (s : String) :
    (ToLower lower s = "debug" → StringLevel lower s = DebugLevel) ∧
    (ToLower lower s = "info" → StringLevel lower s = InfoLevel) ∧
    (ToLower lower s = "warn" → StringLevel lower s = WarnLevel) ∧
    (ToLower lower s = "error" → StringLevel lower s = ErrorLevel) ∧
    (ToLower lower s ≠ "debug" → ToLower lower s ≠ "info" → ToLower lower s ≠ "warn" →
      ToLower lower s ≠ "error" → StringLevel lower s = InfoLevel) ∧
    StringLevel lower s ∈ [DebugLevel, InfoLevel, WarnLevel, ErrorLevel] ∧
    (∀ t : String, ToLower lower t = ToLower lower s →
      StringLevel lower t = StringLevel lower s) ∧
    (StringLevel lower "" = InfoLevel ∧ StringLevel lower "warning" = InfoLevel ∧
      StringLevel lower "fatal" = InfoLevel ∧ StringLevel lower "panic" = InfoLevel ∧
      StringLevel lower " debug " = InfoLevel ∧ StringLevel lower "error " = InfoLevel) ∧
    (StringLevel lower "DEBUG" = DebugLevel ∧ StringLevel lower "Info" = InfoLevel ∧
      StringLevel lower "wArN" = WarnLevel ∧ StringLevel lower "ERROR" = ErrorLevel) := by
  refine ⟨?_, ?_, ?_, ?_, ?_, ?_, ?_, ⟨?_, ?_, ?_, ?_, ?_, ?_⟩, ⟨?_, ?_, ?_, ?_⟩⟩
  · intro h; simp [StringLevel, h]
  · intro h; simp [StringLevel, h]
  · intro h
    have e1 : ("warn" : String) ≠ "debug" := by decide
    have e2 : ("warn" : String) ≠ "info" := by decide
    simp [StringLevel, h, e1, e2]
  · intro h
    have e1 : ("error" : String) ≠ "debug" := by decide
    have e2 : ("error" : String) ≠ "info" := by decide
    have e3 : ("error" : String) ≠ "warn" := by decide
    simp [StringLevel, h, e1, e2, e3]
  · intro h1 h2 h3 h4; simp [StringLevel, h1, h2, h3, h4]
  · unfold StringLevel
    simp only []
    split
    · simp
    · split
      · simp
      · split
        · simp
        · split <;> simp
  · intro t h; unfold StringLevel; rw [h]
  all_goals (rw [StringLevel_ascii lower hascii _ (by decide)]; decide)

/-- C14, with the ASCII lower-casing, at the spelling "DeBuG". -/
theorem StringLevel_total_witness :
    (ToLower Char.toLower "DeBuG" = "debug" →
      StringLevel Char.toLower "DeBuG" = DebugLevel) ∧
    (ToLower Char.toLower "DeBuG" = "info" → StringLevel Char.toLower "DeBuG" = InfoLevel) ∧
    (ToLower Char.toLower "DeBuG" = "warn" → StringLevel Char.toLower "DeBuG" = WarnLevel) ∧
    (ToLower Char.toLower "DeBuG" = "error" →
      StringLevel Char.toLower "DeBuG" = ErrorLevel) ∧
    (ToLower Char.toLower "DeBuG" ≠ "debug" → ToLower Char.toLower "DeBuG" ≠ "info" →
      ToLower Char.toLower "DeBuG" ≠ "warn" → ToLower Char.toLower "DeBuG" ≠ "error" →
      StringLevel Char.toLower "DeBuG" = InfoLevel) ∧
    StringLevel Char.toLower "DeBuG" ∈ [DebugLevel, InfoLevel, WarnLevel, ErrorLevel] ∧
    (∀ t : String, ToLower Char.toLower t = ToLower Char.toLower "DeBuG" →
      StringLevel Char.toLower t = StringLevel Char.toLower "DeBuG") ∧
    (StringLevel Char.toLower "" = InfoLevel ∧ StringLevel Char.toLower "warning" = InfoLevel ∧
      StringLevel Char.toLower "fatal" = InfoLevel ∧
      StringLevel Char.toLower "panic" = InfoLevel ∧
      StringLevel Char.toLower " debug " = InfoLevel ∧
      StringLevel Char.toLower "error " = InfoLevel) ∧
    (StringLevel Char.toLower "DEBUG" = DebugLevel ∧
      StringLevel Char.toLower "Info" = InfoLevel ∧
      StringLevel Char.toLower "wArN" = WarnLevel ∧
      StringLevel Char.toLower "ERROR" = ErrorLevel) :=
  StringLevel_total Char.toLower (fun _ _ => rfl) "DeBuG"

end Golog
